import Mathlib

/-!
The package libdns-fastdns: the wire client and the adapter of `client.go`.

A shallow embedding of `client.go`.  Go values are modelled as follows.

* `string` is `String`, `int` is `Int` (64 bit; the only arithmetic on it that can
  leave the range is the multiplication by `time.Second`, which wraps explicitly).
* `time.Duration` is an `Int` number of nanoseconds, `time.Time` an `Int` instant.
* `float64` is the rational it denotes; every float operation is the exact operation
  followed by `roundF64`, round-to-nearest-even onto the binary64 grid.
* An `error` is identified with its `Error()` text.
* The library and the network are an environment `Env`: `url.Parse`, `URL.String`,
  `http.NewRequestWithContext`, `json.Marshal`, `json.Unmarshal`, `http.DefaultClient.Do`
  together with `io.ReadAll`, and the constant `DefaultUrl` of the package.
* A method on `*Provider` is a function on `State`, which holds the provider's fields and the
  list of requests handed to `http.DefaultClient.Do` so far.
* A call either returns its pair `(value, error)` or panics (nil pointer dereference).
* `p.mutex.Lock()` and the deferred `Unlock()` have no effect on a single call and are left out.
-/

set_option linter.dupNamespace false
set_option maxRecDepth 8000

namespace Fastdns

/-! ## Data model (`client.go` lines 16-61) -/

/-- Go `time.Time`, as an instant. -/
abbrev Time := Int

structure Token where
  Expire : Time := 0
  Token : String := ""
deriving DecidableEq, Repr

structure Error where
  Code : Int := 0
  Message : String := ""
deriving DecidableEq, Repr

structure Domain where
  Id : Int := 0
  Name : String := ""
  OwnerId : Int := 0
  CreatedAt : Time := 0
  UpdatedAt : Time := 0
deriving DecidableEq, Repr

structure Record where
  Id : String := ""
  Name : String := ""
  /-- Field `Type` of the source (a reserved word here). -/
  Typ : String := ""
  Content : String := ""
  Serial : Int := 0
  Refresh : Int := 0
  Retry : Int := 0
  Expire : Int := 0
  Ttl : Int := 0
  Tag : String := ""
  Flag : Int := 0
  Priority : Int := 0
  Weight : Int := 0
  Port : Int := 0
deriving DecidableEq, Repr

structure RecordForm where
  Name : String := ""
  /-- Field `Type` of the source (a reserved word here). -/
  Typ : String := ""
  Content : String := ""
  Ttl : Int := 0
  Tag : String := ""
  Flag : Int := 0
  Priority : Int := 0
  Weight : Int := 0
  Port : Int := 0
deriving DecidableEq, Repr

/-- Go `time.Duration`: a signed 64-bit count of nanoseconds. -/
abbrev Duration := Int

/-- The record of package `libdns` with the fields `client.go` reads and writes. -/
structure LibdnsRecord where
  ID : String := ""
  /-- Field `Type` of the source (a reserved word here). -/
  Typ : String := ""
  Name : String := ""
  Value : String := ""
  TTL : Duration := 0
  Priority : Int := 0
deriving DecidableEq, Repr

/-- The fields of `Provider` that `client.go` uses (the mutex apart). -/
structure Provider where
  APIUrl : String := ""
  APIToken : String := ""
  token : Token := {}
deriving DecidableEq, Repr

/-! ## 64-bit integers, durations and float64 -/

/-- Two's complement wrap of an integer into the range of Go `int64`. -/
def wrapInt64 (x : Int) : Int := (x + 2 ^ 63) % 2 ^ 64 - 2 ^ 63

/-- Membership in the range of Go `int64`. -/
def inInt64 (x : Int) : Prop := -(2 ^ 63) ≤ x ∧ x < 2 ^ 63

instance (x : Int) : Decidable (inInt64 x) := by unfold inInt64; infer_instance

/-- Go `time.Second`. -/
def Second : Duration := 1000000000

/-- Go `time.Duration(n) * time.Second` on 64-bit integers. -/
def secondsToDuration (n : Int) : Duration := wrapInt64 (n * Second)

/-- Number of halvings that bring `n` below 2, counted with at most `fuel` steps. -/
def log2Fuel : Nat → Nat → Nat
  | 0, _ => 0
  | fuel + 1, n => if 2 ≤ n then log2Fuel fuel (n / 2) + 1 else 0

/-- Position of the leading bit of a natural number: `⌊log₂ n⌋` for `0 < n`. -/
def natLog2 (n : Nat) : Nat := log2Fuel n n

/-- Binary exponent of a positive rational: `⌊log₂ q⌋`. -/
def ilog2 (q : ℚ) : Int :=
  let e0 : Int := (natLog2 q.num.natAbs : Int) - (natLog2 q.den : Int)
  if q < (2 : ℚ) ^ e0 then e0 - 1 else e0

/-- Nearest integer, ties to the even one. -/
def roundHalfEven (m : ℚ) : Int :=
  let f := ⌊m⌋
  let r := m - f
  if r < 1 / 2 then f
  else if 1 / 2 < r then f + 1
  else if f % 2 = 0 then f else f + 1

/-- IEEE 754 binary64 rounding (round to nearest, ties to even) of an exact value: 53
significant bits, gradual underflow below `2 ^ (-1022)`.  Overflow to infinity is not
modelled; no value computed here exceeds `2 ^ 34`. -/
def roundF64 (q : ℚ) : ℚ :=
  if q = 0 then 0
  else
    let a := |q|
    let e := max (ilog2 a) (-1022)
    let n := roundHalfEven (a / (2 : ℚ) ^ (e - 52))
    (if q < 0 then -1 else 1) * (n : ℚ) * (2 : ℚ) ^ (e - 52)

/-- Go `float64(i)` for an integer `i`. -/
def f64ofInt (i : Int) : ℚ := roundF64 i

/-- Go `x + y` on `float64`. -/
def f64add (x y : ℚ) : ℚ := roundF64 (x + y)

/-- Go `x / y` on `float64`. -/
def f64div (x y : ℚ) : ℚ := roundF64 (x / y)

/-- Go `int(x)` for a `float64` within the range of `int`: the fraction is discarded. -/
def f64toInt (x : ℚ) : Int := if 0 ≤ x then ⌊x⌋ else ⌈x⌉

/-- The method `time.Duration.Seconds` of the standard library:
`sec := d / Second; nsec := d % Second; return float64(sec) + float64(nsec)/1e9`, where `/`
and `%` on integers round toward zero. -/
def Duration.Seconds (d : Duration) : ℚ :=
  let sec := Int.tdiv d Second
  let nsec := Int.tmod d Second
  f64add (f64ofInt sec) (f64div (f64ofInt nsec) 1000000000)

/-- The expression `int(record.TTL.Seconds())` of `addDNSEntry` and `updateDNSEntry`. -/
def ttlSeconds (d : Duration) : Int := f64toInt (Duration.Seconds d)

/-! ## The environment: standard library and network -/

/-- Go `url.URL`: the path, and the rest of the parsed URL kept as parsed. -/
structure URL where
  base : String := ""
  Path : String := ""
deriving DecidableEq, Repr

/-- Go `http.Request` as built by `http.NewRequestWithContext` and `Header.Set`. -/
structure Request where
  Method : String
  URL : String
  Header : List (String × String) := []
  Body : Option String := none
deriving DecidableEq, Repr

/-- Go `req.Header.Set(key, value)`. -/
def Request.setHeader (req : Request) (key value : String) : Request :=
  { req with Header := req.Header.filter (fun kv => kv.1 ≠ key) ++ [(key, value)] }

/-- What `http.DefaultClient.Do(req)` followed by `io.ReadAll(resp.Body)` yields. -/
inductive RoundTrip where
  /-- No response: `Do` returned an error. -/
  | failed (err : String)
  /-- A response with this status; reading its body gave an error or the bytes. -/
  | response (status : Int) (body : Except String String)
deriving Repr

structure Env where
  /-- The package constant `DefaultUrl` (declared outside `client.go`). -/
  DefaultUrl : String
  /-- Go `url.Parse`: on an error the returned `*URL` is nil. -/
  urlParse : String → Except String URL
  /-- Go `(*URL).String`. -/
  urlString : URL → String
  /-- Error of `http.NewRequestWithContext(ctx, method, url, body)`, if any; the returned
  `*Request` is nil in that case. -/
  newRequestErr : String → String → Option String
  marshalRecordForm : RecordForm → Except String String
  marshalRecord : Record → Except String String
  unmarshalError : String → Except String Error
  unmarshalToken : String → Except String Token
  unmarshalDomain : String → Except String Domain
  unmarshalRecord : String → Except String Record
  unmarshalRecords : String → Except String (List Record)
  /-- The transport: the answer to a request, given the requests issued before it. -/
  Do : List Request → Request → RoundTrip

/-- The provider's fields and the requests handed to `http.DefaultClient.Do` so far. -/
structure State where
  provider : Provider
  sent : List Request := []
deriving DecidableEq, Repr

/-- Outcome of a Go call returning `(value, error)`. -/
inductive Result (α : Type) where
  /-- The call returned `val` and `err` (`none` is the nil error). -/
  | ret (val : α) (err : Option String)
  /-- The call did not return: runtime panic (nil pointer dereference). -/
  | panic
deriving DecidableEq, Repr

/-! ## Wire client (`client.go` lines 63-307) -/

/-- Source: `func (p *Provider) doAuth(ctx) (string, error)`. -/
def doAuth (env : Env) (s : State) : State × Result String :=
  let p : Provider :=
    if s.provider.APIUrl = "" then { s.provider with APIUrl := env.DefaultUrl } else s.provider
  let s : State := { s with provider := p }
  match env.urlParse p.APIUrl with
  | .error _ => (s, .panic)  -- `u` is nil and `u.Path = ...` comes before the check of `err`
  | .ok u =>
    let u : URL := { u with Path := "/login_token" }
    match env.newRequestErr "POST" (env.urlString u) with
    | some _ => (s, .panic)  -- `req` is nil and `req.Header.Set` comes before the check
    | none =>
      let req : Request := { Method := "POST", URL := env.urlString u, Body := none }
      let req := req.setHeader "Accept" "application/json"
      let req := req.setHeader "Authenticate" p.APIToken
      let resp := env.Do s.sent req
      let s : State := { s with sent := s.sent ++ [req] }
      match resp with
      | .failed err => (s, .ret "" (some err))
      | .response _ (.error err) => (s, .ret "" (some err))
      | .response status (.ok bodyBytes) =>
        if status ≠ 200 then
          match env.unmarshalError bodyBytes with
          | .error _ => (s, .ret "" (some bodyBytes))
          | .ok _error => (s, .ret "" (some _error.Message))
        else
          match env.unmarshalToken bodyBytes with
          | .error err => (s, .ret "" (some err))
          | .ok token => ({ s with provider := { p with token := token } }, .ret token.Token none)

/-- Source: `func (p *Provider) getDomainByZone(ctx, zone string) (Domain, error)`. -/
def getDomainByZone (env : Env) (s : State) (zone : String) : State × Result Domain :=
  let p : Provider :=
    if s.provider.APIUrl = "" then { s.provider with APIUrl := env.DefaultUrl } else s.provider
  let s : State := { s with provider := p }
  match env.urlParse p.APIUrl with
  | .error _ => (s, .panic)
  | .ok u =>
    let u : URL := { u with Path := "/api/domains/" ++ zone ++ "/name" }
    match env.newRequestErr "GET" (env.urlString u) with
    | some _ => (s, .panic)
    | none =>
      let req : Request := { Method := "GET", URL := env.urlString u, Body := none }
      let req := req.setHeader "Accept" "application/json"
      let req := req.setHeader "Authorization" ("Bearer " ++ p.token.Token)
      let resp := env.Do s.sent req
      let s : State := { s with sent := s.sent ++ [req] }
      match resp with
      | .failed err => (s, .ret {} (some err))
      | .response _ (.error err) => (s, .ret {} (some err))
      | .response status (.ok bodyBytes) =>
        if status ≠ 200 then
          match env.unmarshalError bodyBytes with
          | .error _ => (s, .ret {} (some bodyBytes))
          | .ok _error => (s, .ret {} (some _error.Message))
        else
          match env.unmarshalDomain bodyBytes with
          | .error err => (s, .ret {} (some err))
          | .ok domain => (s, .ret domain none)

/-- Source: `func (p *Provider) getRecords(ctx, domainId int) ([]Record, error)`. -/
def getRecords (env : Env) (s : State) (domainId : Int) : State × Result (List Record) :=
  let p : Provider :=
    if s.provider.APIUrl = "" then { s.provider with APIUrl := env.DefaultUrl } else s.provider
  let s : State := { s with provider := p }
  match env.urlParse p.APIUrl with
  | .error _ => (s, .panic)
  | .ok u =>
    let u : URL := { u with Path := "/api/domains/" ++ toString domainId ++ "/records" }
    match env.newRequestErr "GET" (env.urlString u) with
    | some _ => (s, .panic)
    | none =>
      let req : Request := { Method := "GET", URL := env.urlString u, Body := none }
      let req := req.setHeader "Accept" "application/json"
      let req := req.setHeader "Authorization" ("Bearer " ++ p.token.Token)
      let resp := env.Do s.sent req
      let s : State := { s with sent := s.sent ++ [req] }
      match resp with
      | .failed err => (s, .ret [] (some err))
      | .response _ (.error err) => (s, .ret [] (some err))
      | .response status (.ok bodyBytes) =>
        if status ≠ 200 then
          match env.unmarshalError bodyBytes with
          | .error _ => (s, .ret [] (some bodyBytes))
          | .ok _error => (s, .ret [] (some _error.Message))
        else
          match env.unmarshalRecords bodyBytes with
          | .error err => (s, .ret [] (some err))
          | .ok records => (s, .ret records none)

/-- Source: `func (p *Provider) createRecord(ctx, domainId int, record RecordForm) (Record, error)`. -/
def createRecord (env : Env) (s : State) (domainId : Int) (record : RecordForm) :
    State × Result Record :=
  let p : Provider :=
    if s.provider.APIUrl = "" then { s.provider with APIUrl := env.DefaultUrl } else s.provider
  let s : State := { s with provider := p }
  match env.urlParse p.APIUrl with
  | .error _ => (s, .panic)
  | .ok u =>
    let u : URL := { u with Path := "/api/domains/" ++ toString domainId ++ "/records" }
    match env.marshalRecordForm record with
    | .error err => (s, .ret {} (some err))
    | .ok jsonValue =>
      match env.newRequestErr "POST" (env.urlString u) with
      | some _ => (s, .panic)
      | none =>
        let req : Request := { Method := "POST", URL := env.urlString u, Body := some jsonValue }
        let req := req.setHeader "Content-Type" "application/json"
        let req := req.setHeader "Accept" "application/json"
        let req := req.setHeader "Authorization" ("Bearer " ++ p.token.Token)
        let resp := env.Do s.sent req
        let s : State := { s with sent := s.sent ++ [req] }
        match resp with
        | .failed err => (s, .ret {} (some err))
        | .response _ (.error err) => (s, .ret {} (some err))
        | .response status (.ok bodyBytes) =>
          if status ≠ 201 then
            match env.unmarshalError bodyBytes with
            | .error _ => (s, .ret {} (some bodyBytes))
            | .ok _error => (s, .ret {} (some _error.Message))
          else
            match env.unmarshalRecord bodyBytes with
            | .error err => (s, .ret {} (some err))
            | .ok retRecord => (s, .ret retRecord none)

/-- Source: `func (p *Provider) deleteRecord(ctx, domainId int, recordId string) error`.
The value of the result is `Unit`: the function returns the error alone. -/
def deleteRecord (env : Env) (s : State) (domainId : Int) (recordId : String) :
    State × Result Unit :=
  let p : Provider :=
    if s.provider.APIUrl = "" then { s.provider with APIUrl := env.DefaultUrl } else s.provider
  let s : State := { s with provider := p }
  match env.urlParse p.APIUrl with
  | .error _ => (s, .panic)
  | .ok u =>
    let u : URL :=
      { u with Path := "/api/domains/" ++ toString domainId ++ "/records/" ++ recordId }
    match env.newRequestErr "DELETE" (env.urlString u) with
    | some _ => (s, .panic)
    | none =>
      let req : Request := { Method := "DELETE", URL := env.urlString u, Body := none }
      let req := req.setHeader "Accept" "application/json"
      let req := req.setHeader "Authorization" ("Bearer " ++ p.token.Token)
      let resp := env.Do s.sent req
      let s : State := { s with sent := s.sent ++ [req] }
      match resp with
      | .failed err => (s, .ret () (some err))
      | .response _ (.error err) => (s, .ret () (some err))
      | .response status (.ok bodyBytes) =>
        if status ≠ 204 then
          match env.unmarshalError bodyBytes with
          | .error _ => (s, .ret () (some bodyBytes))
          | .ok _error => (s, .ret () (some _error.Message))
        else (s, .ret () none)

/-- Source: `func (p *Provider) updateRecord(ctx, domainId int, record Record) (Record, error)`. -/
def updateRecord (env : Env) (s : State) (domainId : Int) (record : Record) :
    State × Result Record :=
  let p : Provider :=
    if s.provider.APIUrl = "" then { s.provider with APIUrl := env.DefaultUrl } else s.provider
  let s : State := { s with provider := p }
  match env.urlParse p.APIUrl with
  | .error _ => (s, .panic)
  | .ok u =>
    let u : URL :=
      { u with Path := "/api/domains/" ++ toString domainId ++ "/records/" ++ record.Id }
    match env.marshalRecord record with
    | .error err => (s, .ret {} (some err))
    | .ok jsonValue =>
      match env.newRequestErr "PUT" (env.urlString u) with
      | some _ => (s, .panic)
      | none =>
        let req : Request := { Method := "PUT", URL := env.urlString u, Body := some jsonValue }
        let req := req.setHeader "Content-Type" "application/json"
        let req := req.setHeader "Accept" "application/json"
        let req := req.setHeader "Authorization" ("Bearer " ++ p.token.Token)
        let resp := env.Do s.sent req
        let s : State := { s with sent := s.sent ++ [req] }
        match resp with
        | .failed err => (s, .ret {} (some err))
        | .response _ (.error err) => (s, .ret {} (some err))
        | .response status (.ok bodyBytes) =>
          if status ≠ 200 then
            match env.unmarshalError bodyBytes with
            | .error _ => (s, .ret {} (some bodyBytes))
            | .ok _error => (s, .ret {} (some _error.Message))
          else
            match env.unmarshalRecord bodyBytes with
            | .error err => (s, .ret {} (some err))
            | .ok retRecord => (s, .ret retRecord none)

/-! ## Adapter (`client.go` lines 309-423) -/

/-- The record literal built from a wire record in `getDNSEntries`, `addDNSEntry` and
`updateDNSEntry`. -/
def toLibdns (entry : Record) : LibdnsRecord :=
  { ID := entry.Id
    Typ := entry.Typ
    Name := entry.Name
    Value := entry.Content
    TTL := secondsToDuration entry.Ttl
    Priority := entry.Priority }

/-- The `RecordForm` literal that `addDNSEntry` hands to `createRecord` (lines 353-359). -/
def toRecordForm (record : LibdnsRecord) : RecordForm :=
  { Name := record.Name
    Typ := record.Typ
    Content := record.Value
    Ttl := ttlSeconds record.TTL
    Priority := record.Priority }

/-- The `Record` literal that `updateDNSEntry` hands to `updateRecord` (lines 404-411). -/
def toRecord (record : LibdnsRecord) : Record :=
  { Id := record.ID
    Name := record.Name
    Typ := record.Typ
    Content := record.Value
    Ttl := ttlSeconds record.TTL
    Priority := record.Priority }

/-- Source: `func (p *Provider) getDNSEntries(ctx, zone string) ([]libdns.Record, error)`. -/
def getDNSEntries (env : Env) (s : State) (zone : String) : State × Result (List LibdnsRecord) :=
  match doAuth env s with
  | (s, .panic) => (s, .panic)
  | (s, .ret _ (some err)) => (s, .ret [] (some err))
  | (s, .ret _ none) =>
    match getDomainByZone env s zone with
    | (s, .panic) => (s, .panic)
    | (s, .ret _ (some err)) => (s, .ret [] (some err))
    | (s, .ret domain none) =>
      match getRecords env s domain.Id with
      | (s, .panic) => (s, .panic)
      | (s, .ret _ (some err)) => (s, .ret [] (some err))
      | (s, .ret entries none) =>
        let records := entries.foldl (fun records entry => records ++ [toLibdns entry]) []
        (s, .ret records none)

/-- Source: `func (p *Provider) addDNSEntry(ctx, zone string, record libdns.Record)`. -/
def addDNSEntry (env : Env) (s : State) (zone : String) (record : LibdnsRecord) :
    State × Result LibdnsRecord :=
  match doAuth env s with
  | (s, .panic) => (s, .panic)
  | (s, .ret _ (some err)) => (s, .ret {} (some err))
  | (s, .ret _ none) =>
    match getDomainByZone env s zone with
    | (s, .panic) => (s, .panic)
    | (s, .ret _ (some err)) => (s, .ret {} (some err))
    | (s, .ret domain none) =>
      match createRecord env s domain.Id (toRecordForm record) with
      | (s, .panic) => (s, .panic)
      | (s, .ret _ (some err)) => (s, .ret {} (some err))
      | (s, .ret entry none) => (s, .ret (toLibdns entry) none)

/-- Source: `func (p *Provider) removeDNSEntry(ctx, zone string, record libdns.Record)`. -/
def removeDNSEntry (env : Env) (s : State) (zone : String) (record : LibdnsRecord) :
    State × Result LibdnsRecord :=
  match doAuth env s with
  | (s, .panic) => (s, .panic)
  | (s, .ret _ (some err)) => (s, .ret record (some err))
  | (s, .ret _ none) =>
    match getDomainByZone env s zone with
    | (s, .panic) => (s, .panic)
    | (s, .ret _ (some err)) => (s, .ret record (some err))
    | (s, .ret domain none) =>
      match deleteRecord env s domain.Id record.ID with
      | (s, .panic) => (s, .panic)
      | (s, .ret _ (some err)) => (s, .ret record (some err))
      | (s, .ret _ none) => (s, .ret record none)

/-- Source: `func (p *Provider) updateDNSEntry(ctx, zone string, record libdns.Record)`. -/
def updateDNSEntry (env : Env) (s : State) (zone : String) (record : LibdnsRecord) :
    State × Result LibdnsRecord :=
  match doAuth env s with
  | (s, .panic) => (s, .panic)
  | (s, .ret _ (some err)) => (s, .ret {} (some err))
  | (s, .ret _ none) =>
    match getDomainByZone env s zone with
    | (s, .panic) => (s, .panic)
    | (s, .ret _ (some err)) => (s, .ret {} (some err))
    | (s, .ret domain none) =>
      match updateRecord env s domain.Id (toRecord record) with
      | (s, .panic) => (s, .panic)
      | (s, .ret _ (some err)) => (s, .ret {} (some err))
      | (s, .ret entry none) => (s, .ret (toLibdns entry) none)

/-! ## The common shape of the six wire operations -/

/-- The provider a wire operation works with after its first statement
`if p.APIUrl == "" { p.APIUrl = DefaultUrl }`. -/
def withDefaultUrl (env : Env) (p : Provider) : Provider :=
  if p.APIUrl = "" then { p with APIUrl := env.DefaultUrl } else p

/-- The six wire operations differ only in method, path, payload, headers, success status,
decoder and what they store; this is their common body, used to reason about them at once. -/
def wireCall {α β : Type} (env : Env) (s : State) (method path : String)
    (payload : Except String (Option String)) (headers : Provider → Request → Request)
    (success : Int) (zero : α) (decode : String → Except String β)
    (store : Provider → β → Provider) (out : β → α) : State × Result α :=
  let p : Provider := withDefaultUrl env s.provider
  let s : State := { s with provider := p }
  match env.urlParse p.APIUrl with
  | .error _ => (s, .panic)
  | .ok u =>
    let u : URL := { u with Path := path }
    match payload with
    | .error err => (s, .ret zero (some err))
    | .ok body =>
      match env.newRequestErr method (env.urlString u) with
      | some _ => (s, .panic)
      | none =>
        let req : Request := headers p { Method := method, URL := env.urlString u, Body := body }
        let resp := env.Do s.sent req
        let s : State := { s with sent := s.sent ++ [req] }
        match resp with
        | .failed err => (s, .ret zero (some err))
        | .response _ (.error err) => (s, .ret zero (some err))
        | .response status (.ok bodyBytes) =>
          if status ≠ success then
            match env.unmarshalError bodyBytes with
            | .error _ => (s, .ret zero (some bodyBytes))
            | .ok _error => (s, .ret zero (some _error.Message))
          else
            match decode bodyBytes with
            | .error err => (s, .ret zero (some err))
            | .ok v => ({ s with provider := store p v }, .ret (out v) none)

/-- Headers of `doAuth`. -/
def authHeaders (p : Provider) (req : Request) : Request :=
  (req.setHeader "Accept" "application/json").setHeader "Authenticate" p.APIToken

/-- Headers of the operations without a request body. -/
def bearer (p : Provider) (req : Request) : Request :=
  (req.setHeader "Accept" "application/json").setHeader "Authorization" ("Bearer " ++ p.token.Token)

/-- Headers of the operations with a JSON request body. -/
def bearerJson (p : Provider) (req : Request) : Request :=
  ((req.setHeader "Content-Type" "application/json").setHeader "Accept"
    "application/json").setHeader "Authorization" ("Bearer " ++ p.token.Token)

/-- The four adapter operations differ only in the wire operation of their third stage, in
the value they return next to an error and in what they make of the result; this is their
common body, used to reason about them at once. -/
def zoneCall {α γ : Type} (env : Env) (s : State) (zone : String) (zero : γ)
    (op : State → Int → State × Result α) (fin : α → γ) : State × Result γ :=
  match doAuth env s with
  | (s, .panic) => (s, .panic)
  | (s, .ret _ (some err)) => (s, .ret zero (some err))
  | (s, .ret _ none) =>
    match getDomainByZone env s zone with
    | (s, .panic) => (s, .panic)
    | (s, .ret _ (some err)) => (s, .ret zero (some err))
    | (s, .ret domain none) =>
      match op s domain.Id with
      | (s, .panic) => (s, .panic)
      | (s, .ret _ (some err)) => (s, .ret zero (some err))
      | (s, .ret v none) => (s, .ret (fin v) none)

/-! ## A concrete environment for the examples -/

/-- Body of a successful `/login_token` answer. -/
def tokenBody : String := "\x7b\"expire\":\"2030-01-01T00:00:00Z\",\"token\":\"session\"\x7d"

/-- Body of a successful domain lookup. -/
def domainBody : String := "\x7b\"id\":7,\"name\":\"example.com\",\"owner_id\":1\x7d"

/-- Body holding one wire record. -/
def recordBody : String :=
  "\x7b\"id\":\"42\",\"name\":\"test\",\"type\":\"TXT\",\"content\":\"hello\",\"ttl\":30\x7d"

/-- The wire record of `recordBody`. -/
def demoRecord : Record :=
  { Id := "42", Name := "test", Typ := "TXT", Content := "hello", Ttl := 30 }

/-- Body holding a list of two wire records. -/
def recordsBody : String :=
  "[\x7b\"id\":\"42\",\"name\":\"test\",\"type\":\"TXT\",\"content\":\"hello\",\"ttl\":30\x7d," ++
  "\x7b\"id\":\"43\",\"name\":\"mail\",\"type\":\"MX\",\"content\":\"mx.example.com\",\"ttl\":3600,\"priority\":10\x7d]"

/-- The wire records of `recordsBody`. -/
def demoRecords : List Record :=
  [demoRecord,
   { Id := "43", Name := "mail", Typ := "MX", Content := "mx.example.com", Ttl := 3600, Priority := 10 }]

/-- Body holding a list of one wire record whose ttl exceeds what a duration can hold. -/
def hugeTtlBody : String :=
  "[\x7b\"id\":\"44\",\"name\":\"old\",\"type\":\"A\",\"content\":\"192.0.2.1\",\"ttl\":9223372037\x7d]"

/-- The error envelope of the provider for an unknown zone. -/
def notFoundBody : String := "\x7b\"code\":404,\"message\":\"zone not found\"\x7d"

/-- A toy standard library over a given transport.  `url.Parse` rejects `://bad` (missing
protocol scheme) and keeps every other text as parsed; a URL prints as its base followed by its
path; the JSON decoders know the bodies above and reject every other text.  The value of
`DefaultUrl` stands for the constant of the package, whose declaration is outside `client.go`;
any URL that is not empty serves. -/
def demoEnv (transport : List Request → Request → RoundTrip) : Env where
  DefaultUrl := "https://fastdns.example"
  urlParse raw :=
    if raw = "://bad" then .error "parse \"://bad\": missing protocol scheme"
    else .ok { base := raw }
  urlString u := u.base ++ u.Path
  newRequestErr _ _ := none
  marshalRecordForm form := .ok ("form " ++ form.Name ++ " " ++ toString form.Ttl)
  marshalRecord record := .ok ("record " ++ record.Id ++ " " ++ toString record.Ttl)
  unmarshalError body :=
    if body = notFoundBody then .ok { Code := 404, Message := "zone not found" }
    else .error "invalid character"
  unmarshalToken body :=
    if body = tokenBody then .ok { Expire := 1893456000, Token := "session" }
    else .error "unexpected end of JSON input"
  unmarshalDomain body :=
    if body = domainBody then .ok { Id := 7, Name := "example.com", OwnerId := 1 }
    else .error "unexpected end of JSON input"
  unmarshalRecord body :=
    if body = recordBody then .ok demoRecord else .error "unexpected end of JSON input"
  unmarshalRecords body :=
    if body = recordsBody then .ok demoRecords
    else if body = hugeTtlBody then
      .ok [{ Id := "44", Name := "old", Typ := "A", Content := "192.0.2.1", Ttl := 9223372037 }]
    else if body = "[]" then .ok []
    else .error "unexpected end of JSON input"
  Do := transport

/-- A transport that answers the login and the domain lookup of zone `example.com` with
status 200 and gives `answer` to every other request. -/
def demoServer (answer : RoundTrip) : List Request → Request → RoundTrip :=
  fun _ req =>
    if req.URL = "https://fastdns.example/login_token" then .response 200 (.ok tokenBody)
    else if req.URL = "https://fastdns.example/api/domains/example.com/name" then
      .response 200 (.ok domainBody)
    else answer

/-- A provider as a caller constructs it. -/
def demoState : State :=
  { provider := { APIUrl := "https://fastdns.example", APIToken := "secret" } }

/-! ## Lemmas -/

/-! ### The operations as instances of their common shape -/

theorem doAuth_eq (env : Env) (s : State) :
    doAuth env s = wireCall env s "POST" "/login_token" (.ok none) authHeaders
      200 "" env.unmarshalToken (fun p token => { p with token := token })
      (fun token => token.Token) := by
  unfold doAuth wireCall authHeaders withDefaultUrl
  dsimp only
  repeat' split
  all_goals first | rfl | simp_all

theorem getDomainByZone_eq (env : Env) (s : State) (zone : String) :
    getDomainByZone env s zone =
      wireCall env s "GET" ("/api/domains/" ++ zone ++ "/name") (.ok none)
        bearer 200 {} env.unmarshalDomain (fun p _ => p) id := by
  unfold getDomainByZone wireCall bearer withDefaultUrl
  dsimp only
  repeat' split
  all_goals first | rfl | simp_all

theorem getRecords_eq (env : Env) (s : State) (domainId : Int) :
    getRecords env s domainId =
      wireCall env s "GET" ("/api/domains/" ++ toString domainId ++ "/records")
        (.ok none) bearer 200 [] env.unmarshalRecords (fun p _ => p) id := by
  unfold getRecords wireCall bearer withDefaultUrl
  dsimp only
  repeat' split
  all_goals first | rfl | simp_all

theorem createRecord_eq (env : Env) (s : State) (domainId : Int) (record : RecordForm) :
    createRecord env s domainId record =
      wireCall env s "POST" ("/api/domains/" ++ toString domainId ++ "/records")
        ((env.marshalRecordForm record).map some) bearerJson 201 {} env.unmarshalRecord
        (fun p _ => p) id := by
  unfold createRecord wireCall bearerJson withDefaultUrl
  cases env.marshalRecordForm record <;> dsimp only [Except.map]
  all_goals repeat' split
  all_goals first | rfl | simp_all

theorem deleteRecord_eq (env : Env) (s : State) (domainId : Int) (recordId : String) :
    deleteRecord env s domainId recordId =
      wireCall env s "DELETE" ("/api/domains/" ++ toString domainId ++ "/records/" ++ recordId)
        (.ok none) bearer 204 () (fun _ => (.ok () : Except String Unit)) (fun p _ => p) id := by
  unfold deleteRecord wireCall bearer withDefaultUrl
  dsimp only

theorem updateRecord_eq (env : Env) (s : State) (domainId : Int) (record : Record) :
    updateRecord env s domainId record =
      wireCall env s "PUT" ("/api/domains/" ++ toString domainId ++ "/records/" ++ record.Id)
        ((env.marshalRecord record).map some) bearerJson 200 {} env.unmarshalRecord
        (fun p _ => p) id := by
  unfold updateRecord wireCall bearerJson withDefaultUrl
  cases env.marshalRecord record <;> dsimp only [Except.map]
  all_goals repeat' split
  all_goals first | rfl | simp_all

theorem getDNSEntries_eq (env : Env) (s : State) (zone : String) :
    getDNSEntries env s zone =
      zoneCall env s zone [] (fun s id => getRecords env s id)
        (fun entries => entries.foldl (fun records entry => records ++ [toLibdns entry]) []) := by
  unfold getDNSEntries zoneCall
  repeat' split
  all_goals simp_all

theorem addDNSEntry_eq (env : Env) (s : State) (zone : String) (record : LibdnsRecord) :
    addDNSEntry env s zone record =
      zoneCall env s zone {} (fun s id => createRecord env s id (toRecordForm record))
        toLibdns := by
  unfold addDNSEntry zoneCall
  repeat' split
  all_goals simp_all

theorem removeDNSEntry_eq (env : Env) (s : State) (zone : String) (record : LibdnsRecord) :
    removeDNSEntry env s zone record =
      zoneCall env s zone record (fun s id => deleteRecord env s id record.ID)
        (fun _ => record) := by
  unfold removeDNSEntry zoneCall
  repeat' split
  all_goals simp_all

theorem updateDNSEntry_eq (env : Env) (s : State) (zone : String) (record : LibdnsRecord) :
    updateDNSEntry env s zone record =
      zoneCall env s zone {} (fun s id => updateRecord env s id (toRecord record))
        toLibdns := by
  unfold updateDNSEntry zoneCall
  repeat' split
  all_goals simp_all

/-! ### Properties of the common shape of the wire operations -/

section WireCall

variable {α β : Type} (env : Env) (s : State) (method path : String)
  (payload : Except String (Option String)) (headers : Provider → Request → Request)
  (success : Int) (zero : α) (decode : String → Except String β)
  (store : Provider → β → Provider) (out : β → α)

/-- A response with another status than the success status gives the message of the error
envelope when the body decodes as one, and the raw body otherwise. -/
theorem wireCall_error_policy (req : Request) (status : Int) (body : String)
    (hsent : (wireCall env s method path payload headers success zero decode store out).1.sent
      = s.sent ++ [req])
    (hresp : env.Do s.sent req = .response status (.ok body))
    (hstatus : status ≠ success) :
    (wireCall env s method path payload headers success zero decode store out).2 =
      .ret zero (some (match env.unmarshalError body with
        | .ok e => e.Message
        | .error _ => body)) := by
  revert hsent
  unfold wireCall
  dsimp only
  repeat' split
  all_goals (intro h; simp at h)
  all_goals (subst h; simp_all)

/-- A response with another status than the success status gives an error and the zero
value, whether or not its body could be read. -/
theorem wireCall_status_error (req : Request) (status : Int) (b : Except String String)
    (hsent : (wireCall env s method path payload headers success zero decode store out).1.sent
      = s.sent ++ [req])
    (hresp : env.Do s.sent req = .response status b)
    (hstatus : status ≠ success) :
    ∃ err, (wireCall env s method path payload headers success zero decode store out).2 =
      .ret zero (some err) := by
  revert hsent
  unfold wireCall
  dsimp only
  repeat' split
  all_goals (intro h; simp at h)
  all_goals (subst h; simp_all)

/-- A response with the success status gives what the decoder gives. -/
theorem wireCall_success (req : Request) (body : String)
    (hsent : (wireCall env s method path payload headers success zero decode store out).1.sent
      = s.sent ++ [req])
    (hresp : env.Do s.sent req = .response success (.ok body)) :
    (wireCall env s method path payload headers success zero decode store out).2 =
      (match decode body with
        | .ok v => .ret (out v) none
        | .error err => .ret zero (some err)) := by
  revert hsent
  unfold wireCall
  dsimp only
  repeat' split
  all_goals (intro h; simp at h)
  all_goals (subst h; simp_all)

/-- A malformed base URL: the nil `*URL` is dereferenced, the call panics, nothing is sent. -/
theorem wireCall_parse_error (e : String)
    (hparse : env.urlParse (withDefaultUrl env s.provider).APIUrl = .error e) :
    wireCall env s method path payload headers success zero decode store out =
      ({ s with provider := withDefaultUrl env s.provider }, .panic) := by
  unfold wireCall
  dsimp only
  rw [hparse]

/-- The provider after the call: the base URL defaulted, the rest as stored. -/
theorem wireCall_provider
    (hurl : ∀ p v, (store p v).APIUrl = p.APIUrl)
    (htok : ∀ p v, (store p v).APIToken = p.APIToken) :
    (wireCall env s method path payload headers success zero decode store out).1.provider.APIUrl
        = (withDefaultUrl env s.provider).APIUrl ∧
    (wireCall env s method path payload headers success zero decode store out).1.provider.APIToken
        = s.provider.APIToken := by
  have h0 : (withDefaultUrl env s.provider).APIToken = s.provider.APIToken := by
    unfold withDefaultUrl; split <;> rfl
  unfold wireCall
  dsimp only
  repeat' split
  all_goals simp [hurl, htok, h0]

/-- The request handed to the transport, if any, is the one the operation builds from the
parsed base URL; a call that returns without error has handed one over. -/
theorem wireCall_request :
    ((wireCall env s method path payload headers success zero decode store out).1.sent = s.sent ∧
      ∀ v, (wireCall env s method path payload headers success zero decode store out).2
        ≠ .ret v none) ∨
    ∃ u body, env.urlParse (withDefaultUrl env s.provider).APIUrl = .ok u ∧ payload = .ok body ∧
      (wireCall env s method path payload headers success zero decode store out).1.sent
        = s.sent ++ [headers (withDefaultUrl env s.provider)
            { Method := method, URL := env.urlString { u with Path := path }, Body := body }] := by
  unfold wireCall
  dsimp only
  repeat' split
  all_goals simp_all

/-- At most one request, carrying the method of the operation; none means no success. -/
theorem wireCall_one_request (hm : ∀ p r, (headers p r).Method = r.Method) :
    ((wireCall env s method path payload headers success zero decode store out).1.sent = s.sent ∧
      ∀ v, (wireCall env s method path payload headers success zero decode store out).2
        ≠ .ret v none) ∨
    ∃ req, req.Method = method ∧
      (wireCall env s method path payload headers success zero decode store out).1.sent
        = s.sent ++ [req] := by
  rcases wireCall_request env s method path payload headers success zero decode store out with
    h | ⟨u, body, _, _, h⟩
  · exact Or.inl h
  · exact Or.inr ⟨_, by rw [hm], h⟩

/-- The complete outcome of a call.  Either nothing is sent and the call does not succeed; or
the base URL was parsed, the payload encoded and exactly the request the operation builds was
sent, and then either the call does not succeed, or that request was answered with the success
status and a body the decoder accepts, whose value is stored and returned. -/
theorem wireCall_outcome :
    (((wireCall env s method path payload headers success zero decode store out).1.sent = s.sent ∧
      (wireCall env s method path payload headers success zero decode store out).1.provider
        = withDefaultUrl env s.provider) ∧
      ∀ v, (wireCall env s method path payload headers success zero decode store out).2
        ≠ .ret v none) ∨
    ∃ u pbody, env.urlParse (withDefaultUrl env s.provider).APIUrl = .ok u ∧
      payload = .ok pbody ∧
      (wireCall env s method path payload headers success zero decode store out).1.sent
        = s.sent ++ [headers (withDefaultUrl env s.provider)
            { Method := method, URL := env.urlString { u with Path := path }, Body := pbody }] ∧
      (((wireCall env s method path payload headers success zero decode store out).1.provider
          = withDefaultUrl env s.provider ∧
        ∀ v, (wireCall env s method path payload headers success zero decode store out).2
          ≠ .ret v none) ∨
       ∃ body w, env.Do s.sent (headers (withDefaultUrl env s.provider)
          { Method := method, URL := env.urlString { u with Path := path }, Body := pbody })
          = .response success (.ok body) ∧
        decode body = .ok w ∧
        (wireCall env s method path payload headers success zero decode store out).1.provider
          = store (withDefaultUrl env s.provider) w ∧
        (wireCall env s method path payload headers success zero decode store out).2
          = .ret (out w) none) := by
  unfold wireCall
  dsimp only
  repeat' split
  all_goals simp_all

end WireCall

theorem authHeaders_Method (p : Provider) (r : Request) : (authHeaders p r).Method = r.Method := rfl

theorem bearer_Method (p : Provider) (r : Request) : (bearer p r).Method = r.Method := rfl

theorem bearerJson_Method (p : Provider) (r : Request) : (bearerJson p r).Method = r.Method := rfl

theorem withDefaultUrl_idem (env : Env) (p q : Provider)
    (h : q.APIUrl = (withDefaultUrl env p).APIUrl) :
    (withDefaultUrl env q).APIUrl = (withDefaultUrl env p).APIUrl := by
  unfold withDefaultUrl at h ⊢
  split at h <;> split <;> simp_all

theorem withDefaultUrl_fixed (env : Env) (p q : Provider)
    (h : q.APIUrl = (withDefaultUrl env p).APIUrl) : withDefaultUrl env q = q := by
  unfold withDefaultUrl at h ⊢
  rcases q with ⟨qurl, qtok, qt⟩
  split at h <;> split <;> simp_all

theorem withDefaultUrl_APIUrl (env : Env) (p : Provider) :
    (withDefaultUrl env p).APIUrl = if p.APIUrl = "" then env.DefaultUrl else p.APIUrl := by
  unfold withDefaultUrl; split <;> rfl

theorem withDefaultUrl_APIToken (env : Env) (p : Provider) :
    (withDefaultUrl env p).APIToken = p.APIToken := by
  unfold withDefaultUrl; split <;> rfl

theorem authHeaders_literal (p : Provider) (m url : String) (body : Option String) :
    authHeaders p { Method := m, URL := url, Body := body } =
      { Method := m, URL := url,
        Header := [("Accept", "application/json"), ("Authenticate", p.APIToken)],
        Body := body } := by
  simp [authHeaders, Request.setHeader]

theorem bearer_literal (p : Provider) (m url : String) (body : Option String) :
    bearer p { Method := m, URL := url, Body := body } =
      { Method := m, URL := url,
        Header := [("Accept", "application/json"),
          ("Authorization", "Bearer " ++ p.token.Token)],
        Body := body } := by
  simp [bearer, Request.setHeader]

theorem bearerJson_literal (p : Provider) (m url : String) (body : Option String) :
    bearerJson p { Method := m, URL := url, Body := body } =
      { Method := m, URL := url,
        Header := [("Content-Type", "application/json"), ("Accept", "application/json"),
          ("Authorization", "Bearer " ++ p.token.Token)],
        Body := body } := by
  simp [bearerJson, Request.setHeader]

/-! ### The request and the outcome of each stage of an update -/

/-- The login: nothing is sent and the call does not succeed, or exactly the `POST` to
`/login_token` with the API token is sent, and the call succeeds only when that request is
answered with status 200 and a token, which it stores. -/
theorem doAuth_outcome (env : Env) (s : State) :
    ((doAuth env s).1.sent = s.sent ∧ ∀ v, (doAuth env s).2 ≠ .ret v none) ∨
    ∃ u, env.urlParse (if s.provider.APIUrl = "" then env.DefaultUrl else s.provider.APIUrl)
        = .ok u ∧
      (doAuth env s).1.sent = s.sent ++
        [{ Method := "POST", URL := env.urlString { u with Path := "/login_token" },
           Header := [("Accept", "application/json"), ("Authenticate", s.provider.APIToken)],
           Body := none }] ∧
      ((∀ v, (doAuth env s).2 ≠ .ret v none) ∨
       ∃ body token, env.Do s.sent
          { Method := "POST", URL := env.urlString { u with Path := "/login_token" },
            Header := [("Accept", "application/json"), ("Authenticate", s.provider.APIToken)],
            Body := none } = .response 200 (.ok body) ∧
        env.unmarshalToken body = .ok token ∧
        (doAuth env s).1.provider = { withDefaultUrl env s.provider with token := token } ∧
        (doAuth env s).2 = .ret token.Token none) := by
  rw [doAuth_eq, ← withDefaultUrl_APIUrl, ← withDefaultUrl_APIToken env s.provider]
  rcases wireCall_outcome env s "POST" "/login_token" (.ok none) authHeaders 200 ""
    env.unmarshalToken (fun p token => { p with token := token }) (fun token => token.Token)
    with ⟨⟨h1, _⟩, h2⟩ | ⟨u, pbody, hparse, hpay, hsent, hrest⟩
  · exact Or.inl ⟨h1, h2⟩
  · cases hpay
    rw [authHeaders_literal] at hsent hrest
    refine Or.inr ⟨u, hparse, hsent, ?_⟩
    rcases hrest with ⟨_, hno⟩ | ⟨body, w, hdo, hdec, hprov, hret⟩
    · exact Or.inl hno
    · exact Or.inr ⟨body, w, hdo, hdec, hprov, hret⟩

/-- The domain lookup, in a state whose base URL is already defaulted: nothing is sent and the
call does not succeed, or exactly the `GET` of `/api/domains/<zone>/name` with the session
token is sent, and the call succeeds only when that request is answered with status 200 and a
domain, which it returns. -/
theorem getDomainByZone_outcome (env : Env) (s : State) (zone : String)
    (hfix : withDefaultUrl env s.provider = s.provider) :
    ((getDomainByZone env s zone).1.sent = s.sent ∧
      ∀ v, (getDomainByZone env s zone).2 ≠ .ret v none) ∨
    ∃ u, env.urlParse s.provider.APIUrl = .ok u ∧
      (getDomainByZone env s zone).1.sent = s.sent ++
        [{ Method := "GET",
           URL := env.urlString { u with Path := "/api/domains/" ++ zone ++ "/name" },
           Header := [("Accept", "application/json"),
             ("Authorization", "Bearer " ++ s.provider.token.Token)],
           Body := none }] ∧
      (getDomainByZone env s zone).1.provider = s.provider ∧
      ((∀ v, (getDomainByZone env s zone).2 ≠ .ret v none) ∨
       ∃ body d, env.Do s.sent
          { Method := "GET",
            URL := env.urlString { u with Path := "/api/domains/" ++ zone ++ "/name" },
            Header := [("Accept", "application/json"),
              ("Authorization", "Bearer " ++ s.provider.token.Token)],
            Body := none } = .response 200 (.ok body) ∧
        env.unmarshalDomain body = .ok d ∧
        (getDomainByZone env s zone).2 = .ret d none) := by
  rw [getDomainByZone_eq]
  rcases wireCall_outcome env s "GET" ("/api/domains/" ++ zone ++ "/name") (.ok none) bearer
    200 ({} : Domain) env.unmarshalDomain (fun p _ => p) id
    with ⟨⟨h1, _⟩, h2⟩ | ⟨u, pbody, hparse, hpay, hsent, hrest⟩
  · exact Or.inl ⟨h1, h2⟩
  · cases hpay
    rw [hfix] at hparse
    rw [hfix, bearer_literal] at hsent hrest
    refine Or.inr ⟨u, hparse, hsent, ?_, ?_⟩
    · rcases hrest with ⟨hp, _⟩ | ⟨_, _, _, _, hp, _⟩ <;> exact hp
    · rcases hrest with ⟨_, hno⟩ | ⟨body, w, hdo, hdec, _, hret⟩
      · exact Or.inl hno
      · exact Or.inr ⟨body, w, hdo, hdec, hret⟩

/-- The update, in a state whose base URL is already defaulted: nothing is sent and the call
does not succeed, or exactly the `PUT` of `/api/domains/<domain id>/records/<record id>` with
the session token and the encoded record is sent, and the call succeeds only when that request
is answered with status 200 and a wire record, which it returns. -/
theorem updateRecord_outcome (env : Env) (s : State) (domainId : Int) (record : Record)
    (hfix : withDefaultUrl env s.provider = s.provider) :
    ((updateRecord env s domainId record).1.sent = s.sent ∧
      ∀ v, (updateRecord env s domainId record).2 ≠ .ret v none) ∨
    ∃ u json, env.urlParse s.provider.APIUrl = .ok u ∧ env.marshalRecord record = .ok json ∧
      (updateRecord env s domainId record).1.sent = s.sent ++
        [{ Method := "PUT",
           URL := env.urlString
             { u with Path := "/api/domains/" ++ toString domainId ++ "/records/" ++ record.Id },
           Header := [("Content-Type", "application/json"), ("Accept", "application/json"),
             ("Authorization", "Bearer " ++ s.provider.token.Token)],
           Body := some json }] ∧
      ((∀ v, (updateRecord env s domainId record).2 ≠ .ret v none) ∨
       ∃ body w, env.Do s.sent
          { Method := "PUT",
            URL := env.urlString
              { u with Path := "/api/domains/" ++ toString domainId ++ "/records/" ++ record.Id },
            Header := [("Content-Type", "application/json"), ("Accept", "application/json"),
              ("Authorization", "Bearer " ++ s.provider.token.Token)],
            Body := some json } = .response 200 (.ok body) ∧
        env.unmarshalRecord body = .ok w ∧
        (updateRecord env s domainId record).2 = .ret w none) := by
  rw [updateRecord_eq]
  rcases wireCall_outcome env s "PUT"
    ("/api/domains/" ++ toString domainId ++ "/records/" ++ record.Id)
    ((env.marshalRecord record).map some) bearerJson
    200 ({} : Record) env.unmarshalRecord (fun p _ => p) id
    with ⟨⟨h1, _⟩, h2⟩ | ⟨u, pbody, hparse, hpay, hsent, hrest⟩
  · exact Or.inl ⟨h1, h2⟩
  · rw [hfix] at hparse
    rw [hfix, bearerJson_literal] at hsent hrest
    obtain ⟨json, hjson, rfl⟩ : ∃ json, env.marshalRecord record = .ok json ∧
        pbody = some json := by
      cases hm : env.marshalRecord record with
      | error e => rw [hm] at hpay; simp [Except.map] at hpay
      | ok j =>
        rw [hm] at hpay
        simp only [Except.map, Except.ok.injEq] at hpay
        exact ⟨j, rfl, hpay.symm⟩
    refine Or.inr ⟨u, json, hparse, hjson, hsent, ?_⟩
    rcases hrest with ⟨_, hno⟩ | ⟨body, w, hdo, hdec, _, hret⟩
    · exact Or.inl hno
    · exact Or.inr ⟨body, w, hdo, hdec, hret⟩

/-! ### Properties of the common shape of the adapter operations -/

section ZoneCall

variable {α γ : Type} (env : Env) (s : State) (zone : String) (zero : γ)
  (op : State → Int → State × Result α) (fin : α → γ)

/-- A failed authentication ends the call in the state `doAuth` left, with its error. -/
theorem zoneCall_auth_error (v e : String) (h : (doAuth env s).2 = .ret v (some e)) :
    zoneCall env s zone zero op fin = ((doAuth env s).1, .ret zero (some e)) := by
  unfold zoneCall
  rcases hA : doAuth env s with ⟨s1, r1⟩
  rw [hA] at h
  simp only at h
  subst h
  rfl

/-- A failed domain resolution ends the call in the state `getDomainByZone` left, with its
error. -/
theorem zoneCall_resolve_error (v e : String) (d : Domain)
    (h1 : (doAuth env s).2 = .ret v none)
    (h2 : (getDomainByZone env (doAuth env s).1 zone).2 = .ret d (some e)) :
    zoneCall env s zone zero op fin =
      ((getDomainByZone env (doAuth env s).1 zone).1, .ret zero (some e)) := by
  unfold zoneCall
  rcases hA : doAuth env s with ⟨s1, r1⟩
  rw [hA] at h1 h2
  simp only at h1 h2
  subst h1
  dsimp only
  rcases hB : getDomainByZone env s1 zone with ⟨s2, r2⟩
  rw [hB] at h2
  simp only at h2
  subst h2
  rfl

/-- After both first stages succeeded the call is its third stage. -/
theorem zoneCall_third (v : String) (d : Domain)
    (h1 : (doAuth env s).2 = .ret v none)
    (h2 : (getDomainByZone env (doAuth env s).1 zone).2 = .ret d none) :
    zoneCall env s zone zero op fin =
      match op (getDomainByZone env (doAuth env s).1 zone).1 d.Id with
      | (s, .panic) => (s, .panic)
      | (s, .ret _ (some err)) => (s, .ret zero (some err))
      | (s, .ret v none) => (s, .ret (fin v) none) := by
  unfold zoneCall
  rcases hA : doAuth env s with ⟨s1, r1⟩
  rw [hA] at h1 h2
  simp only at h1 h2
  subst h1
  dsimp only
  rcases hB : getDomainByZone env s1 zone with ⟨s2, r2⟩
  rw [hB] at h2
  simp only at h2
  subst h2
  rfl

/-- The requests of a call are, in this order and each at most once: the login, the domain
lookup, the request of the third stage (which has the property `P` its operation gives it). -/
theorem zoneCall_sent (m : String) (P : Request → Prop)
    (hop : ∀ s d, (op s d).1.sent = s.sent ∨
      ∃ req, req.Method = m ∧ P req ∧ (op s d).1.sent = s.sent ++ [req]) :
    ∃ l, (zoneCall env s zone zero op fin).1.sent = s.sent ++ l ∧
      l.map Request.Method <+: ["POST", "GET", m] ∧ ∀ r ∈ l.drop 2, P r := by
  have hA := wireCall_one_request env s "POST" "/login_token" (.ok none) authHeaders
    200 "" env.unmarshalToken (fun p token => { p with token := token })
    (fun token => token.Token) authHeaders_Method
  rw [← doAuth_eq] at hA
  unfold zoneCall
  rcases hAeq : doAuth env s with ⟨s1, r1⟩
  rw [hAeq] at hA
  have hB := wireCall_one_request env s1 "GET" ("/api/domains/" ++ zone ++ "/name") (.ok none)
    bearer 200 {} env.unmarshalDomain (fun p _ => p) id bearer_Method
  rw [← getDomainByZone_eq] at hB
  have short : ∀ t : State, (t.sent = s.sent ∨ ∃ req, req.Method = "POST" ∧
      t.sent = s.sent ++ [req]) →
      ∃ l, t.sent = s.sent ++ l ∧ l.map Request.Method <+: ["POST", "GET", m] ∧
        ∀ r ∈ l.drop 2, P r := by
    rintro t (h | ⟨a, ha, h⟩)
    · exact ⟨[], by simp [h], by simp, by simp⟩
    · exact ⟨[a], h, by simp [ha], by simp⟩
  have hA' : s1.sent = s.sent ∨ ∃ req, req.Method = "POST" ∧ s1.sent = s.sent ++ [req] := by
    rcases hA with ⟨h, _⟩ | h
    · exact Or.inl h
    · exact Or.inr h
  rcases r1 with ⟨v1, _ | e1⟩ | _
  · dsimp only
    rcases hA with ⟨_, hno⟩ | ⟨a, ha, hs1⟩
    · exact absurd rfl (hno v1)
    rcases hBeq : getDomainByZone env s1 zone with ⟨s2, r2⟩
    rw [hBeq] at hB
    have mid : ∀ t : State, (t.sent = s1.sent ∨ ∃ req, req.Method = "GET" ∧
        t.sent = s1.sent ++ [req]) →
        ∃ l, t.sent = s.sent ++ l ∧ l.map Request.Method <+: ["POST", "GET", m] ∧
          ∀ r ∈ l.drop 2, P r := by
      rintro t (h | ⟨g, hg, h⟩)
      · exact ⟨[a], by rw [h, hs1], by simp [ha], by simp⟩
      · exact ⟨[a, g], by rw [h, hs1]; simp, by simp [ha, hg], by simp⟩
    have hB' : s2.sent = s1.sent ∨ ∃ req, req.Method = "GET" ∧ s2.sent = s1.sent ++ [req] := by
      rcases hB with ⟨h, _⟩ | h
      · exact Or.inl h
      · exact Or.inr h
    rcases r2 with ⟨d, _ | e2⟩ | _
    · dsimp only
      rcases hB with ⟨_, hno⟩ | ⟨g, hg, hs2⟩
      · exact absurd rfl (hno d)
      have hC := hop s2 d.Id
      rcases hCeq : op s2 d.Id with ⟨s3, r3⟩
      rw [hCeq] at hC
      have last : ∃ l, s3.sent = s.sent ++ l ∧
          l.map Request.Method <+: ["POST", "GET", m] ∧ ∀ r ∈ l.drop 2, P r := by
        rcases hC with h | ⟨u, hu, hP, h⟩
        · exact ⟨[a, g], by rw [h, hs2, hs1]; simp, by simp [ha, hg], by simp⟩
        · exact ⟨[a, g, u], by rw [h, hs2, hs1]; simp, by simp [ha, hg, hu], by simpa using hP⟩
      rcases r3 with ⟨w, _ | e3⟩ | _ <;> exact last
    · exact mid s2 hB'
    · exact mid s2 hB'
  · exact short s1 hA'
  · exact short s1 hA'

/-- The provider after a call: the base URL defaulted, the API token untouched. -/
theorem zoneCall_provider
    (hop : ∀ t d, (op t d).1.provider.APIUrl = (withDefaultUrl env t.provider).APIUrl ∧
      (op t d).1.provider.APIToken = t.provider.APIToken) :
    (zoneCall env s zone zero op fin).1.provider.APIUrl
        = (withDefaultUrl env s.provider).APIUrl ∧
    (zoneCall env s zone zero op fin).1.provider.APIToken = s.provider.APIToken := by
  have hA := wireCall_provider env s "POST" "/login_token" (.ok none) authHeaders
    200 "" env.unmarshalToken (fun p token => { p with token := token })
    (fun token => token.Token) (fun _ _ => rfl) (fun _ _ => rfl)
  rw [← doAuth_eq] at hA
  unfold zoneCall
  rcases hAeq : doAuth env s with ⟨s1, r1⟩
  rw [hAeq] at hA
  have hB := wireCall_provider env s1 "GET" ("/api/domains/" ++ zone ++ "/name") (.ok none)
    bearer 200 ({} : Domain) env.unmarshalDomain (fun p _ => p) id (fun _ _ => rfl)
    (fun _ _ => rfl)
  rw [← getDomainByZone_eq] at hB
  rcases r1 with ⟨v1, _ | e1⟩ | _
  · dsimp only
    rcases hBeq : getDomainByZone env s1 zone with ⟨s2, r2⟩
    rw [hBeq] at hB
    have hB' : s2.provider.APIUrl = (withDefaultUrl env s.provider).APIUrl ∧
        s2.provider.APIToken = s.provider.APIToken :=
      ⟨hB.1.trans (withDefaultUrl_idem env s.provider s1.provider hA.1), hB.2.trans hA.2⟩
    rcases r2 with ⟨d, _ | e2⟩ | _
    · dsimp only
      have hC := hop s2 d.Id
      rcases hCeq : op s2 d.Id with ⟨s3, r3⟩
      rw [hCeq] at hC
      have hC' : s3.provider.APIUrl = (withDefaultUrl env s.provider).APIUrl ∧
          s3.provider.APIToken = s.provider.APIToken :=
        ⟨hC.1.trans (withDefaultUrl_idem env s.provider s2.provider hB'.1), hC.2.trans hB'.2⟩
      rcases r3 with ⟨w, _ | e3⟩ | _ <;> exact hC'
    · exact hB'
    · exact hB'
  · exact hA
  · exact hA

end ZoneCall

/-! ### Lists and 64-bit durations -/

theorem foldl_append_singleton {α β : Type} (f : α → β) (l : List α) (init : List β) :
    l.foldl (fun acc a => acc ++ [f a]) init = init ++ l.map f := by
  induction l generalizing init with
  | nil => simp
  | cons a l ih => simp [ih]

theorem secondsToDuration_exact (n : Int) (hlo : -9223372036 ≤ n) (hhi : n ≤ 9223372036) :
    secondsToDuration n = n * 1000000000 := by
  have h63 : (2 : Int) ^ 63 = 9223372036854775808 := by norm_num
  have h64 : (2 : Int) ^ 64 = 18446744073709551616 := by norm_num
  unfold secondsToDuration wrapInt64 Second
  rw [h63, h64, Int.emod_eq_of_lt (by omega) (by omega)]
  ring

/-! ### float64 rounding and `Duration.Seconds` -/

theorem log2Fuel_spec (fuel n : Nat) (hn : n ≠ 0) (hf : n ≤ fuel) :
    2 ^ log2Fuel fuel n ≤ n ∧ n < 2 ^ (log2Fuel fuel n + 1) := by
  induction fuel generalizing n with
  | zero => omega
  | succ fuel ih =>
    unfold log2Fuel
    split
    · have h := ih (n / 2) (by omega) (by omega)
      rw [pow_succ, pow_succ]
      rw [pow_succ] at h
      omega
    · have : n = 1 := by omega
      subst this
      simp

theorem natLog2_spec (n : Nat) (hn : n ≠ 0) :
    2 ^ natLog2 n ≤ n ∧ n < 2 ^ (natLog2 n + 1) :=
  log2Fuel_spec n n hn le_rfl

theorem quotient_exponent (N D : ℚ) (a b : ℕ) (hD : 0 < D)
    (hn1 : (2 : ℚ) ^ a ≤ N) (hn2 : N < (2 : ℚ) ^ (a + 1))
    (hd1 : (2 : ℚ) ^ b ≤ D) (hd2 : D < (2 : ℚ) ^ (b + 1)) :
    (2 : ℚ) ^ ((a : ℤ) - (b : ℤ) - 1) ≤ N / D ∧ N / D < (2 : ℚ) ^ ((a : ℤ) - (b : ℤ) + 1) := by
  have two : (2 : ℚ) ≠ 0 := by norm_num
  have ha : (0 : ℚ) < 2 ^ a := by positivity
  have hb : (0 : ℚ) < 2 ^ b := by positivity
  rw [pow_succ] at hn2 hd2
  constructor
  · rw [zpow_sub₀ two, zpow_sub₀ two, zpow_natCast, zpow_natCast, zpow_one, div_div,
      div_le_div_iff₀ (by positivity) hD]
    nlinarith
  · rw [zpow_add₀ two, zpow_sub₀ two, zpow_natCast, zpow_natCast, zpow_one, div_lt_iff₀ hD,
      div_mul_eq_mul_div, div_mul_eq_mul_div, lt_div_iff₀ hb]
    nlinarith

theorem ilog2_spec (q : ℚ) (hq : 0 < q) :
    (2 : ℚ) ^ ilog2 q ≤ q ∧ q < (2 : ℚ) ^ (ilog2 q + 1) := by
  have hnum : 0 < q.num := Rat.num_pos.mpr hq
  have hn0 : q.num.natAbs ≠ 0 := by omega
  have hd0 : q.den ≠ 0 := q.den_nz
  obtain ⟨hn1, hn2⟩ := natLog2_spec q.num.natAbs hn0
  obtain ⟨hd1, hd2⟩ := natLog2_spec q.den hd0
  have hqeq : (q.num.natAbs : ℚ) / (q.den : ℚ) = q := by
    have h1 : (q.num.natAbs : ℚ) = (q.num : ℚ) := by
      rw [← Int.cast_natCast, Int.natAbs_of_nonneg hnum.le]
    rw [h1]
    exact Rat.num_div_den q
  have hdpos : (0 : ℚ) < (q.den : ℚ) := by exact_mod_cast Nat.pos_of_ne_zero hd0
  have key := quotient_exponent (q.num.natAbs : ℚ) (q.den : ℚ) (natLog2 q.num.natAbs)
    (natLog2 q.den) hdpos (by exact_mod_cast hn1) (by exact_mod_cast hn2)
    (by exact_mod_cast hd1) (by exact_mod_cast hd2)
  rw [hqeq] at key
  unfold ilog2
  dsimp only
  split
  · next h => exact ⟨key.1, by simpa using h⟩
  · next h => exact ⟨not_lt.mp h, key.2⟩

theorem roundHalfEven_le (m : ℚ) (z : ℤ) (h : m ≤ z) : roundHalfEven m ≤ z := by
  have hfl : ((⌊m⌋ : ℤ) : ℚ) ≤ m := Int.floor_le m
  have h1 : ⌊m⌋ ≤ z := by exact_mod_cast hfl.trans h
  unfold roundHalfEven
  dsimp only
  split
  · exact h1
  · next hr =>
    have h2 : ⌊m⌋ < z := by
      have : ((⌊m⌋ : ℤ) : ℚ) < z := by linarith
      exact_mod_cast this
    repeat' split
    all_goals omega

theorem le_roundHalfEven (m : ℚ) (z : ℤ) (h : (z : ℚ) ≤ m) : z ≤ roundHalfEven m := by
  have h1 : z ≤ ⌊m⌋ := Int.le_floor.mpr h
  unfold roundHalfEven
  dsimp only
  repeat' split
  all_goals omega

theorem roundHalfEven_lt (m : ℚ) (z : ℤ) (h : m < z - 1 / 2) : roundHalfEven m < z := by
  have hfl : ((⌊m⌋ : ℤ) : ℚ) ≤ m := Int.floor_le m
  have hlt : m < (⌊m⌋ : ℚ) + 1 := Int.lt_floor_add_one m
  have h1 : ⌊m⌋ < z := by
    have : ((⌊m⌋ : ℤ) : ℚ) < z := by linarith
    exact_mod_cast this
  unfold roundHalfEven
  dsimp only
  split
  · exact h1
  · next hr =>
    have h2 : ⌊m⌋ + 1 < z := by
      have : ((⌊m⌋ : ℤ) : ℚ) + 1 < z := by linarith
      exact_mod_cast this
    repeat' split
    all_goals omega

/-- The binary exponent `roundF64` works with. -/
theorem roundF64_of_pos (q : ℚ) (hq : 0 < q) :
    roundF64 q = (roundHalfEven (q / (2 : ℚ) ^ (max (ilog2 q) (-1022) - 52)) : ℚ)
      * (2 : ℚ) ^ (max (ilog2 q) (-1022) - 52) := by
  unfold roundF64
  rw [if_neg hq.ne', abs_of_pos hq, if_neg (not_lt.mpr hq.le)]
  dsimp only
  rw [one_mul]

theorem roundF64_zero : roundF64 0 = 0 := by
  unfold roundF64
  rw [if_pos rfl]

theorem roundF64_neg (q : ℚ) : roundF64 (-q) = -roundF64 q := by
  rcases lt_trichotomy q 0 with h | h | h
  · unfold roundF64
    have h1 : 0 < -q := by linarith
    rw [if_neg h1.ne', if_neg h.ne, abs_neg, if_neg (not_lt.mpr h1.le), if_pos h]
    ring
  · subst h
    simp [roundF64_zero]
  · unfold roundF64
    have h1 : -q < 0 := by linarith
    rw [if_neg h1.ne, if_neg h.ne', abs_neg, if_pos h1, if_neg (not_lt.mpr h.le)]
    ring

/-- Rounding respects every binary grid that is at least as coarse as the last place of the
value: it does not cross a grid point, and below the middle between two grid points it stays
below the upper one. -/
theorem roundF64_grid (q : ℚ) (hq : 0 < q) (j : ℕ) (hj : j ≤ 1074) (K : ℤ)
    (hlt : q < (2 : ℚ) ^ ((53 : ℤ) - j)) :
    (q ≤ K / 2 ^ j → roundF64 q ≤ K / 2 ^ j) ∧
    ((K : ℚ) / 2 ^ j ≤ q → (K : ℚ) / 2 ^ j ≤ roundF64 q) ∧
    (q < K / 2 ^ j - 1 / 2 ^ (j + 1) → roundF64 q < K / 2 ^ j) := by
  obtain ⟨hlo, _⟩ := ilog2_spec q hq
  have hlog : ilog2 q < 53 - (j : ℤ) :=
    (zpow_lt_zpow_iff_right₀ (by norm_num : (1 : ℚ) < 2)).mp (lt_of_le_of_lt hlo hlt)
  have he : max (ilog2 q) (-1022) ≤ 52 - (j : ℤ) := by
    apply max_le <;> omega
  rw [roundF64_of_pos q hq]
  generalize max (ilog2 q) (-1022) = e at he
  obtain ⟨t, ht⟩ : ∃ t : ℕ, (t : ℤ) = 52 - (j : ℤ) - e := ⟨(52 - (j : ℤ) - e).toNat, by omega⟩
  have two : (2 : ℚ) ≠ 0 := by norm_num
  have hu : (0 : ℚ) < (2 : ℚ) ^ (e - 52) := by positivity
  have hgrid : (K : ℚ) / 2 ^ j = ((K * 2 ^ t : ℤ) : ℚ) * (2 : ℚ) ^ (e - 52) := by
    have : (2 : ℚ) ^ (e - 52) = 2 ^ (-(j : ℤ)) / 2 ^ (t : ℤ) := by
      rw [← zpow_sub₀ two]; congr 1; omega
    rw [this, zpow_neg, zpow_natCast, zpow_natCast]
    push_cast
    field_simp
    ring
  have ht1 : (1 : ℚ) ≤ 2 ^ t := one_le_pow₀ (by norm_num)
  have hhalf : (1 : ℚ) / 2 ^ (j + 1) = (2 : ℚ) ^ t / 2 * (2 : ℚ) ^ (e - 52) := by
    have : (2 : ℚ) ^ (e - 52) = 2 ^ (-(j : ℤ)) / 2 ^ (t : ℤ) := by
      rw [← zpow_sub₀ two]; congr 1; omega
    rw [this, zpow_neg, zpow_natCast, zpow_natCast, pow_succ]
    field_simp
    ring
  rw [hgrid, hhalf]
  refine ⟨fun h => ?_, fun h => ?_, fun h => ?_⟩
  · have hm : q / (2 : ℚ) ^ (e - 52) ≤ ((K * 2 ^ t : ℤ) : ℚ) := (div_le_iff₀ hu).mpr h
    have := roundHalfEven_le _ _ hm
    have hc : (roundHalfEven (q / (2 : ℚ) ^ (e - 52)) : ℚ) ≤ ((K * 2 ^ t : ℤ) : ℚ) := by
      exact_mod_cast this
    exact mul_le_mul_of_nonneg_right hc hu.le
  · have hm : ((K * 2 ^ t : ℤ) : ℚ) ≤ q / (2 : ℚ) ^ (e - 52) := (le_div_iff₀ hu).mpr h
    have := le_roundHalfEven _ _ hm
    have hc : ((K * 2 ^ t : ℤ) : ℚ) ≤ (roundHalfEven (q / (2 : ℚ) ^ (e - 52)) : ℚ) := by
      exact_mod_cast this
    exact mul_le_mul_of_nonneg_right hc hu.le
  · have hm : q / (2 : ℚ) ^ (e - 52) < ((K * 2 ^ t : ℤ) : ℚ) - 1 / 2 := by
      rw [div_lt_iff₀ hu]
      have : (((K * 2 ^ t : ℤ) : ℚ) - 1 / 2) * (2 : ℚ) ^ (e - 52) ≥
          ((K * 2 ^ t : ℤ) : ℚ) * (2 : ℚ) ^ (e - 52) - (2 : ℚ) ^ t / 2 * (2 : ℚ) ^ (e - 52) := by
        nlinarith
      linarith
    have := roundHalfEven_lt _ _ hm
    have hc : (roundHalfEven (q / (2 : ℚ) ^ (e - 52)) : ℚ) < ((K * 2 ^ t : ℤ) : ℚ) := by
      exact_mod_cast this
    exact mul_lt_mul_of_pos_right hc hu

theorem roundF64_intCast (k : ℤ) (hk : |k| < 2 ^ 53) : roundF64 (k : ℚ) = k := by
  have pos : ∀ n : ℤ, 0 < n → n < 2 ^ 53 → roundF64 (n : ℚ) = n := by
    intro n hn hn53
    have hq : (0 : ℚ) < n := by exact_mod_cast hn
    have hlt : (n : ℚ) < (2 : ℚ) ^ ((53 : ℤ) - (0 : ℕ)) := by
      have : (n : ℚ) < (2 : ℚ) ^ (53 : ℕ) := by exact_mod_cast hn53
      norm_num
      norm_num at this
      exact this
    obtain ⟨h1, h2, _⟩ := roundF64_grid n hq 0 (by norm_num) n hlt
    simp only [pow_zero, div_one] at h1 h2
    exact le_antisymm (h1 le_rfl) (h2 le_rfl)
  rcases lt_trichotomy k 0 with h | h | h
  · have h' := pos (-k) (by omega) (by rw [abs_of_neg h] at hk; exact hk)
    push_cast at h'
    rw [roundF64_neg] at h'
    linarith
  · subst h
    simpa using roundF64_zero
  · exact pos k h (by rw [abs_of_pos h] at hk; exact hk)

theorem f64toInt_neg (x : ℚ) : f64toInt (-x) = -f64toInt x := by
  unfold f64toInt
  rcases lt_trichotomy x 0 with h | h | h
  · rw [if_pos (by linarith), if_neg (by linarith), Int.floor_neg]
  · subst h; simp
  · rw [if_neg (by linarith), if_pos (by linarith), Int.ceil_neg]

theorem neg_tmod (a b : Int) : (-a).tmod b = -(a.tmod b) := by
  have h1 := Int.tmod_add_tdiv (-a) b
  have h2 := Int.tmod_add_tdiv a b
  rw [Int.neg_tdiv] at h1
  have : b * -(a.tdiv b) = -(b * a.tdiv b) := by ring
  omega

theorem Seconds_neg (d : ℤ) : Duration.Seconds (-d) = -Duration.Seconds d := by
  unfold Duration.Seconds f64add f64div f64ofInt
  dsimp only
  rw [Int.neg_tdiv, neg_tmod]
  push_cast
  rw [roundF64_neg, roundF64_neg, neg_div, roundF64_neg, ← neg_add, roundF64_neg]

theorem ttlSeconds_neg (d : ℤ) : ttlSeconds (-d) = -ttlSeconds d := by
  unfold ttlSeconds
  rw [Seconds_neg, f64toInt_neg]

/-- A fraction of a second, as `float64(nsec)/1e9` computes it, stays clear of 1. -/
theorem fraction_bounds (nsec : ℤ) (h0 : 0 ≤ nsec) (h1 : nsec < 1000000000) :
    0 ≤ roundF64 ((nsec : ℚ) / 1000000000) ∧
    roundF64 ((nsec : ℚ) / 1000000000) ≤ 1 - 1 / 2 ^ 30 - 1 / 2 ^ 40 := by
  rcases eq_or_lt_of_le h0 with h | h
  · subst h
    norm_num [roundF64_zero]
  · have hn : (0 : ℚ) < nsec := by exact_mod_cast h
    have hn1 : (nsec : ℚ) ≤ 999999999 := by
      have : nsec ≤ 999999999 := by omega
      exact_mod_cast this
    have hq : (0 : ℚ) < (nsec : ℚ) / 1000000000 := by positivity
    have hle : (nsec : ℚ) / 1000000000 ≤ 999999999 / 1000000000 := by
      rw [div_le_div_iff₀ (by norm_num) (by norm_num)]
      linarith
    have hlt : (nsec : ℚ) / 1000000000 < (2 : ℚ) ^ ((53 : ℤ) - (40 : ℕ)) := by
      norm_num
      linarith
    obtain ⟨hup, _, _⟩ := roundF64_grid _ hq 40 (by norm_num) (2 ^ 40 - 2 ^ 10 - 1) hlt
    obtain ⟨_, hdown, _⟩ := roundF64_grid _ hq 40 (by norm_num) 0 hlt
    constructor
    · have := hdown (by simpa using hq.le)
      simpa using this
    · have := hup (by
        refine hle.trans ?_
        norm_num)
      refine this.trans ?_
      norm_num

/-- Below 2^24 seconds `int(d.Seconds())` is the whole number of seconds of `d`. -/
theorem ttlSeconds_of_nonneg_lt (d : ℤ) (h0 : 0 ≤ d)
    (hlt : d < 16777216 * 1000000000) : ttlSeconds d = d / 1000000000 := by
  have hsec0 : 0 ≤ d / 1000000000 := Int.ediv_nonneg h0 (by norm_num)
  have hsec1 : d / 1000000000 < 16777216 := by omega
  have hns0 : 0 ≤ d % 1000000000 := Int.emod_nonneg d (by norm_num)
  have hns1 : d % 1000000000 < 1000000000 := Int.emod_lt_of_pos d (by norm_num)
  obtain ⟨hy0, hy1⟩ := fraction_bounds (d % 1000000000) hns0 hns1
  unfold ttlSeconds Duration.Seconds f64add f64div f64ofInt Second
  dsimp only
  rw [Int.tdiv_eq_ediv h0 (by norm_num), Int.tmod_eq_emod h0 (by norm_num),
    roundF64_intCast _ (by rw [abs_of_nonneg hsec0]; omega),
    roundF64_intCast _ (by rw [abs_of_nonneg hns0]; omega)]
  generalize roundF64 (((d % 1000000000 : ℤ) : ℚ) / 1000000000) = y at hy0 hy1
  generalize d / 1000000000 = sec at hsec0 hsec1
  have hs0 : (0 : ℚ) ≤ sec := by exact_mod_cast hsec0
  have hs1 : (sec : ℚ) + 1 ≤ 16777216 := by
    have : sec + 1 ≤ 16777216 := by omega
    exact_mod_cast this
  rcases eq_or_lt_of_le (add_nonneg hs0 hy0) with h | h
  · rw [← h, roundF64_zero]
    have : (sec : ℚ) = 0 := by linarith
    have : sec = 0 := by exact_mod_cast this
    subst this
    simp [f64toInt]
  · have hlt53 : (sec : ℚ) + y < (2 : ℚ) ^ ((53 : ℤ) - (0 : ℕ)) := by
      norm_num
      norm_num at hy1
      linarith
    have hlt24 : (sec : ℚ) + y < (2 : ℚ) ^ ((53 : ℤ) - (29 : ℕ)) := by
      norm_num
      norm_num at hy1
      linarith
    obtain ⟨_, hdown, _⟩ := roundF64_grid _ h 0 (by norm_num) sec hlt53
    obtain ⟨_, _, hup⟩ := roundF64_grid _ h 29 (by norm_num) ((sec + 1) * 2 ^ 29) hlt24
    have hlow : (sec : ℚ) ≤ roundF64 ((sec : ℚ) + y) := by
      have := hdown (by simpa using hy0)
      simpa using this
    have hhigh : roundF64 ((sec : ℚ) + y) < (sec : ℚ) + 1 := by
      have := hup (by
        push_cast
        norm_num
        norm_num at hy1
        linarith)
      push_cast at this
      norm_num at this
      linarith
    unfold f64toInt
    rw [if_pos (hs0.trans hlow)]
    exact Int.floor_eq_iff.mpr ⟨hlow, hhigh⟩

/-- A whole number of seconds is converted exactly. -/
theorem ttlSeconds_whole_nonneg (k : ℤ) (h0 : 0 ≤ k) (hk : k < 2 ^ 53) :
    ttlSeconds (k * 1000000000) = k := by
  unfold ttlSeconds Duration.Seconds f64add f64div f64ofInt Second
  dsimp only
  rw [Int.mul_tdiv_cancel _ (by norm_num), Int.tmod_eq_emod (by positivity) (by norm_num),
    Int.mul_emod_left]
  simp only [Int.cast_zero, roundF64_zero, zero_div, add_zero]
  rw [roundF64_intCast _ (by rw [abs_of_nonneg h0]; exact hk), roundF64_intCast _
    (by rw [abs_of_nonneg h0]; exact hk)]
  unfold f64toInt
  rw [if_pos (by exact_mod_cast h0)]
  simp

theorem ttlSeconds_whole (k : ℤ) (hk : |k| < 2 ^ 53) : ttlSeconds (k * 1000000000) = k := by
  rcases le_or_lt 0 k with h | h
  · exact ttlSeconds_whole_nonneg k h (by rw [abs_of_nonneg h] at hk; exact hk)
  · have := ttlSeconds_whole_nonneg (-k) (by omega) (by rw [abs_of_neg h] at hk; exact hk)
    rw [neg_mul, ttlSeconds_neg] at this
    omega

/-- Below 2^24 seconds in magnitude `int(d.Seconds())` is `d / time.Second`, the quotient
rounded toward zero. -/
theorem ttlSeconds_small (d : ℤ) (h : |d| < 16777216 * 1000000000) :
    ttlSeconds d = Int.tdiv d 1000000000 := by
  rcases le_or_lt 0 d with h0 | h0
  · rw [ttlSeconds_of_nonneg_lt d h0 (by rw [abs_of_nonneg h0] at h; exact h),
      Int.tdiv_eq_ediv h0 (by norm_num)]
  · have := ttlSeconds_of_nonneg_lt (-d) (by omega) (by rw [abs_of_neg h0] at h; exact h)
    rw [ttlSeconds_neg] at this
    rw [← Int.tdiv_eq_ediv (by omega) (by norm_num), Int.neg_tdiv] at this
    omega

theorem tdiv_eq_zero_of_abs_lt (d : ℤ) (h : |d| < 1000000000) :
    Int.tdiv d 1000000000 = 0 := by
  rcases le_or_lt 0 d with h0 | h0
  · rw [abs_of_nonneg h0] at h
    rw [Int.tdiv_eq_ediv h0 (by norm_num)]
    omega
  · rw [abs_of_neg h0] at h
    have h1 : Int.tdiv (-d) 1000000000 = 0 := by
      rw [Int.tdiv_eq_ediv (by omega) (by norm_num)]
      omega
    rw [Int.neg_tdiv] at h1
    omega

/-- A whole number of seconds survives the conversion to the wire ttl and back. -/
theorem seconds_round_trip (t : ℤ) (hrange : inInt64 t) (hwhole : t % 1000000000 = 0) :
    secondsToDuration (ttlSeconds t) = t := by
  unfold inInt64 at hrange
  have h63 : (2 : Int) ^ 63 = 9223372036854775808 := by norm_num
  rw [h63] at hrange
  obtain ⟨k, hk⟩ : ∃ k : ℤ, t = k * 1000000000 := ⟨t / 1000000000, by omega⟩
  have hk1 : -9223372036 ≤ k := by omega
  have hk2 : k ≤ 9223372036 := by omega
  have habs : |k| < 2 ^ 53 := by
    rw [abs_lt]
    norm_num
    constructor <;> omega
  rw [hk, ttlSeconds_whole k habs, secondsToDuration_exact k hk1 hk2]

/-! ### The form and the wire record built from a record -/

/-- Where the conversion is the truncation: the form of `addDNSEntry` and the wire record of
`updateDNSEntry` take name, type, value (as content) and priority from the record, and their
ttl is the duration divided by 10^9 toward zero for every duration of magnitude below 2^24
seconds, hence 0 for every duration of magnitude below one second. -/
theorem ttl_truncated_below_2_24 (record : LibdnsRecord) :
    ((toRecordForm record).Name = record.Name ∧ (toRecordForm record).Typ = record.Typ ∧
      (toRecordForm record).Content = record.Value ∧
      (toRecordForm record).Priority = record.Priority) ∧
    ((toRecord record).Id = record.ID ∧ (toRecord record).Name = record.Name ∧
      (toRecord record).Typ = record.Typ ∧ (toRecord record).Content = record.Value ∧
      (toRecord record).Priority = record.Priority) ∧
    (|record.TTL| < 16777216 * 1000000000 →
      (toRecordForm record).Ttl = Int.tdiv record.TTL 1000000000 ∧
      (toRecord record).Ttl = Int.tdiv record.TTL 1000000000) ∧
    (|record.TTL| < 1000000000 →
      (toRecordForm record).Ttl = 0 ∧ (toRecord record).Ttl = 0) := by
  refine ⟨⟨rfl, rfl, rfl, rfl⟩, ⟨rfl, rfl, rfl, rfl, rfl⟩, fun h => ?_, fun h => ?_⟩
  · exact ⟨ttlSeconds_small record.TTL h, ttlSeconds_small record.TTL h⟩
  · have hsmall : |record.TTL| < 16777216 * 1000000000 := lt_trans h (by norm_num)
    have h0 : Int.tdiv record.TTL 1000000000 = 0 := tdiv_eq_zero_of_abs_lt record.TTL h
    exact ⟨(ttlSeconds_small record.TTL hsmall).trans h0,
      (ttlSeconds_small record.TTL hsmall).trans h0⟩

/-! ## The claims -/

/-! ### C1: listing the records of a zone -/

/-- C1, counterexample: the list request is answered with one wire record whose ttl is
9223372037 seconds.  The duration of the returned record is negative: the 64-bit product with
`time.Second` has wrapped, and it is not 9223372037 seconds. -/
theorem huge_ttl_wraps :
    (getDNSEntries (demoEnv (demoServer (.response 200 (.ok hugeTtlBody)))) demoState
        "example.com").2 =
      .ret [{ ID := "44", Typ := "A", Name := "old", Value := "192.0.2.1",
              TTL := -9223372036709551616 }] none ∧
    (-9223372036709551616 : Int) ≠ 9223372037 * 1000000000 :=
  ⟨rfl, by decide⟩

/-- C1, amended: when authentication and domain resolution succeed and the list request is
answered with status 200 and a body that decodes as a sequence of N wire records,
`getDNSEntries` returns no error and exactly N records in the same order; the i-th has the id,
type, name and priority of the i-th wire record, its content as value, and as ttl the 64-bit
product of the wire ttl with `time.Second`, which is ttl * 10^9 nanoseconds whenever the wire
ttl lies between -9223372036 and 9223372036 seconds. -/
theorem list_entries (env : Env) (s : State) (zone : String) (tok : String) (d : Domain)
    (req : Request) (body : String) (records : List Record)
    (hauth : (doAuth env s).2 = .ret tok none)
    (hdomain : (getDomainByZone env (doAuth env s).1 zone).2 = .ret d none)
    (hsent : (getRecords env (getDomainByZone env (doAuth env s).1 zone).1 d.Id).1.sent
      = (getDomainByZone env (doAuth env s).1 zone).1.sent ++ [req])
    (hresp : env.Do (getDomainByZone env (doAuth env s).1 zone).1.sent req
      = .response 200 (.ok body))
    (hdecode : env.unmarshalRecords body = .ok records) :
    ∃ result, (getDNSEntries env s zone).2 = .ret result none ∧
      result.length = records.length ∧
      ∀ (i : Nat) (w : Record), records[i]? = some w → ∃ r : LibdnsRecord, result[i]? = some r ∧
        r.ID = w.Id ∧ r.Typ = w.Typ ∧ r.Name = w.Name ∧ r.Priority = w.Priority ∧
        r.Value = w.Content ∧ r.TTL = wrapInt64 (w.Ttl * 1000000000) ∧
        (-9223372036 ≤ w.Ttl → w.Ttl ≤ 9223372036 → r.TTL = w.Ttl * 1000000000) := by
  refine ⟨records.map toLibdns, ?_, by simp, ?_⟩
  · rw [getDNSEntries_eq, zoneCall_third env s zone _ _ _ tok d hauth hdomain]
    rw [getRecords_eq] at hsent ⊢
    have h2 := wireCall_success env _ "GET" _ _ bearer 200 ([] : List Record)
      env.unmarshalRecords (fun p _ => p) id req body hsent hresp
    rw [hdecode] at h2
    rcases hC : wireCall env (getDomainByZone env (doAuth env s).1 zone).1 "GET"
      ("/api/domains/" ++ toString d.Id ++ "/records") (.ok none) bearer 200 ([] : List Record)
      env.unmarshalRecords (fun p _ => p) id with ⟨s3, r3⟩
    rw [hC] at h2
    dsimp only at h2
    subst h2
    simp [foldl_append_singleton]
  · intro i w hw
    refine ⟨toLibdns w, by simp [hw], rfl, rfl, rfl, rfl, rfl, rfl, fun hlo hhi => ?_⟩
    exact secondsToDuration_exact w.Ttl hlo hhi

/-- C1, witness: a zone with two records, of ttl 30 and 3600 seconds. -/
theorem list_entries_witness :
    ∃ result, (getDNSEntries (demoEnv (demoServer (.response 200 (.ok recordsBody)))) demoState
        "example.com").2 = .ret result none ∧
      result.length = demoRecords.length ∧
      ∀ (i : Nat) (w : Record), demoRecords[i]? = some w → ∃ r : LibdnsRecord, result[i]? = some r ∧
        r.ID = w.Id ∧ r.Typ = w.Typ ∧ r.Name = w.Name ∧ r.Priority = w.Priority ∧
        r.Value = w.Content ∧ r.TTL = wrapInt64 (w.Ttl * 1000000000) ∧
        (-9223372036 ≤ w.Ttl → w.Ttl ≤ 9223372036 → r.TTL = w.Ttl * 1000000000) :=
  list_entries (demoEnv (demoServer (.response 200 (.ok recordsBody)))) demoState "example.com"
    "session" { Id := 7, Name := "example.com", OwnerId := 1 }
    { Method := "GET", URL := "https://fastdns.example/api/domains/7/records",
      Header := [("Accept", "application/json"), ("Authorization", "Bearer session")] }
    recordsBody demoRecords rfl rfl rfl rfl rfl

/-! ### C2: the text of a wire error -/

/-- C2: for each of the six wire operations, when the request it issued is answered with a
status other than its success status (200, 201 for `createRecord`, 204 for `deleteRecord`), the
returned error's text is the message of the error envelope if the body decodes as one, and the
raw body if it does not; the returned value is the zero value. -/
theorem wire_error_text (env : Env) (s : State) (zone : String) (domainId : Int)
    (form : RecordForm) (record : Record) (recordId : String)
    (req : Request) (status : Int) (body : String)
    (hresp : env.Do s.sent req = .response status (.ok body)) :
    (∀ e, env.unmarshalError body = .ok e →
      ((doAuth env s).1.sent = s.sent ++ [req] → status ≠ 200 →
        (doAuth env s).2 = .ret "" (some e.Message)) ∧
      ((getDomainByZone env s zone).1.sent = s.sent ++ [req] → status ≠ 200 →
        (getDomainByZone env s zone).2 = .ret {} (some e.Message)) ∧
      ((getRecords env s domainId).1.sent = s.sent ++ [req] → status ≠ 200 →
        (getRecords env s domainId).2 = .ret [] (some e.Message)) ∧
      ((createRecord env s domainId form).1.sent = s.sent ++ [req] → status ≠ 201 →
        (createRecord env s domainId form).2 = .ret {} (some e.Message)) ∧
      ((updateRecord env s domainId record).1.sent = s.sent ++ [req] → status ≠ 200 →
        (updateRecord env s domainId record).2 = .ret {} (some e.Message)) ∧
      ((deleteRecord env s domainId recordId).1.sent = s.sent ++ [req] → status ≠ 204 →
        (deleteRecord env s domainId recordId).2 = .ret () (some e.Message))) ∧
    (∀ x, env.unmarshalError body = .error x →
      ((doAuth env s).1.sent = s.sent ++ [req] → status ≠ 200 →
        (doAuth env s).2 = .ret "" (some body)) ∧
      ((getDomainByZone env s zone).1.sent = s.sent ++ [req] → status ≠ 200 →
        (getDomainByZone env s zone).2 = .ret {} (some body)) ∧
      ((getRecords env s domainId).1.sent = s.sent ++ [req] → status ≠ 200 →
        (getRecords env s domainId).2 = .ret [] (some body)) ∧
      ((createRecord env s domainId form).1.sent = s.sent ++ [req] → status ≠ 201 →
        (createRecord env s domainId form).2 = .ret {} (some body)) ∧
      ((updateRecord env s domainId record).1.sent = s.sent ++ [req] → status ≠ 200 →
        (updateRecord env s domainId record).2 = .ret {} (some body)) ∧
      ((deleteRecord env s domainId recordId).1.sent = s.sent ++ [req] → status ≠ 204 →
        (deleteRecord env s domainId recordId).2 = .ret () (some body))) := by
  simp only [doAuth_eq, getDomainByZone_eq, getRecords_eq, createRecord_eq, updateRecord_eq,
    deleteRecord_eq]
  refine ⟨fun e he => ⟨?_, ?_, ?_, ?_, ?_, ?_⟩, fun x hx => ⟨?_, ?_, ?_, ?_, ?_, ?_⟩⟩
  all_goals
    intro hsent hstatus
    rw [wireCall_error_policy _ _ _ _ _ _ _ _ _ _ _ req status body hsent hresp hstatus]
  all_goals first | rw [he] | rw [hx]

/-- C2, witness: an unknown zone answered with status 404 and the error envelope
`{"code":404,"message":"zone not found"}` gives exactly the error `zone not found`, and a
plain-text answer `Service Unavailable` with status 503 gives exactly that text. -/
theorem wire_error_text_witness :
    (getDomainByZone (demoEnv fun _ _ => .response 404 (.ok notFoundBody)) demoState
        "example.org").2 = .ret {} (some "zone not found") ∧
    (deleteRecord (demoEnv fun _ _ => .response 503 (.ok "Service Unavailable")) demoState
        7 "42").2 = .ret () (some "Service Unavailable") :=
  ⟨((wire_error_text (demoEnv fun _ _ => .response 404 (.ok notFoundBody)) demoState
      "example.org" 7 {} {} "42"
      { Method := "GET", URL := "https://fastdns.example/api/domains/example.org/name",
        Header := [("Accept", "application/json"), ("Authorization", "Bearer ")] }
      404 notFoundBody rfl).1 { Code := 404, Message := "zone not found" } rfl).2.1
      (by decide) (by decide),
   ((wire_error_text (demoEnv fun _ _ => .response 503 (.ok "Service Unavailable")) demoState
      "example.org" 7 {} {} "42"
      { Method := "DELETE", URL := "https://fastdns.example/api/domains/7/records/42",
        Header := [("Accept", "application/json"), ("Authorization", "Bearer ")] }
      503 "Service Unavailable" rfl).2 "invalid character" rfl).2.2.2.2.2
      (by decide) (by decide)⟩

/-! ### C3: the success status of create and delete -/

/-- C3: `createRecord` succeeds only on status 201 and `deleteRecord` only on status 204.  For
the answer to the request the operation issued: any status other than 201 makes `createRecord`
return an error and the zero record (status 200 with a body that is a well-formed wire record
included), any status other than 204 makes `deleteRecord` return an error; status 201 with a
body that decodes as a wire record makes `createRecord` return that record and no error;
status 204 makes `deleteRecord` return no error, whatever the body. -/
theorem create_delete_status (env : Env) (s : State) (domainId : Int) (form : RecordForm)
    (recordId : String) (req : Request) (status : Int) (b : Except String String)
    (hresp : env.Do s.sent req = .response status b) :
    ((createRecord env s domainId form).1.sent = s.sent ++ [req] → status ≠ 201 →
      ∃ err, (createRecord env s domainId form).2 = .ret {} (some err)) ∧
    ((createRecord env s domainId form).1.sent = s.sent ++ [req] → status = 200 →
      ∀ body r, b = .ok body → env.unmarshalRecord body = .ok r →
      ∃ err, (createRecord env s domainId form).2 = .ret {} (some err)) ∧
    ((deleteRecord env s domainId recordId).1.sent = s.sent ++ [req] → status ≠ 204 →
      ∃ err, (deleteRecord env s domainId recordId).2 = .ret () (some err)) ∧
    ((createRecord env s domainId form).1.sent = s.sent ++ [req] → status = 201 →
      ∀ body r, b = .ok body → env.unmarshalRecord body = .ok r →
      (createRecord env s domainId form).2 = .ret r none) ∧
    ((deleteRecord env s domainId recordId).1.sent = s.sent ++ [req] → status = 204 →
      ∀ body, b = .ok body → (deleteRecord env s domainId recordId).2 = .ret () none) := by
  simp only [createRecord_eq, deleteRecord_eq]
  refine ⟨fun hsent hst => wireCall_status_error _ _ _ _ _ _ _ _ _ _ _ req status b
      hsent hresp hst,
    fun hsent hst _ _ _ _ => wireCall_status_error _ _ _ _ _ _ _ _ _ _ _ req status b
      hsent hresp (by omega),
    fun hsent hst => wireCall_status_error _ _ _ _ _ _ _ _ _ _ _ req status b
      hsent hresp hst, ?_, ?_⟩
  · intro hsent hst body r hb hr
    subst hst hb
    rw [wireCall_success _ _ _ _ _ _ _ _ _ _ _ req body hsent hresp, hr]
    rfl
  · intro hsent hst body hb
    subst hst hb
    rw [wireCall_success _ _ _ _ _ _ _ _ _ _ _ req body hsent hresp]

/-- C3, witness: the provider answers the create request with status 201 and a wire record
carrying the id `42`; `createRecord` returns that record. -/
theorem create_delete_status_witness :
    (createRecord (demoEnv fun _ _ => .response 201 (.ok recordBody)) demoState 7
      { Name := "test", Typ := "TXT", Content := "hello", Ttl := 30 }).2 = .ret demoRecord none :=
  (create_delete_status (demoEnv fun _ _ => .response 201 (.ok recordBody)) demoState 7
    { Name := "test", Typ := "TXT", Content := "hello", Ttl := 30 } "42"
    { Method := "POST", URL := "https://fastdns.example/api/domains/7/records",
      Header := [("Content-Type", "application/json"), ("Accept", "application/json"),
        ("Authorization", "Bearer ")],
      Body := some "form test 30" }
    201 (.ok recordBody) rfl).2.2.2.1 (by decide) rfl recordBody demoRecord rfl rfl

/-! ### C4: the ttl sent to the provider -/

/-- C4: a record whose ttl is 16777216.999999999 seconds (194 days and a fraction).  The ttl
that `addDNSEntry` puts in the form and `updateDNSEntry` in the wire record is 16777217, one
more than the duration divided by 10^9 toward zero, which is 16777216: the sum
`float64(sec) + float64(nsec)/1e9` of `Duration.Seconds` has rounded up to the next integer
before `int` discards the fraction. -/
theorem ttl_not_truncated :
    (toRecordForm { TTL := 16777216999999999 }).Ttl = 16777217 ∧
    (toRecord { TTL := 16777216999999999 }).Ttl = 16777217 ∧
    Int.tdiv 16777216999999999 1000000000 = 16777216 := by
  decide!

/-! ### C5: round trip of the two mappings -/

/-- C5: for every record whose ttl is a whole number of seconds (and a 64-bit duration), a
wire record that holds the field values of the form `addDNSEntry` builds is mapped back by
`getDNSEntries` to a record with the same type, name, value, priority and ttl. -/
theorem round_trip (record : LibdnsRecord) (w : Record)
    (hrange : inInt64 record.TTL) (hwhole : record.TTL % Second = 0)
    (hName : w.Name = (toRecordForm record).Name) (hTyp : w.Typ = (toRecordForm record).Typ)
    (hContent : w.Content = (toRecordForm record).Content)
    (hTtl : w.Ttl = (toRecordForm record).Ttl)
    (hPriority : w.Priority = (toRecordForm record).Priority) :
    (toLibdns w).Typ = record.Typ ∧ (toLibdns w).Name = record.Name ∧
    (toLibdns w).Value = record.Value ∧ (toLibdns w).Priority = record.Priority ∧
    (toLibdns w).TTL = record.TTL := by
  refine ⟨hTyp, hName, hContent, hPriority, ?_⟩
  show secondsToDuration w.Ttl = record.TTL
  rw [hTtl]
  exact seconds_round_trip record.TTL hrange hwhole

/-- C5, witness: the record `{type TXT, name test, value hello, ttl 30s, priority 0}` and the
wire record the provider holds for it come back as type `TXT`, name `test`, value `hello`,
ttl 30 seconds. -/
theorem round_trip_witness :
    (toLibdns demoRecord).Typ = "TXT" ∧ (toLibdns demoRecord).Name = "test" ∧
    (toLibdns demoRecord).Value = "hello" ∧ (toLibdns demoRecord).Priority = 0 ∧
    (toLibdns demoRecord).TTL = 30 * Second :=
  round_trip { Typ := "TXT", Name := "test", Value := "hello", TTL := 30 * Second, Priority := 0 }
    demoRecord (by decide) (by decide) rfl rfl rfl (by decide!) rfl

/-! ### C6: `updateDNSEntry` without an id -/

/-- C6, counterexample: an update of a record without an id, against a provider that answers
the `PUT` to `/api/domains/7/records/` with status 200 and a wire record.  The call does not
fail: it returns that record and no error. -/
theorem update_without_id_can_succeed :
    (updateDNSEntry (demoEnv (demoServer (.response 200 (.ok recordBody)))) demoState
        "example.com"
        { ID := "", Typ := "TXT", Name := "test", Value := "hello", TTL := 30000000000 }).2 =
      .ret { ID := "42", Typ := "TXT", Name := "test", Value := "hello", TTL := 30000000000 }
        none ∧
    ((updateDNSEntry (demoEnv (demoServer (.response 200 (.ok recordBody)))) demoState
        "example.com"
        { ID := "", Typ := "TXT", Name := "test", Value := "hello", TTL := 30000000000
          }).1.sent.map fun r => (r.Method, r.URL)) =
      [("POST", "https://fastdns.example/login_token"),
       ("GET", "https://fastdns.example/api/domains/example.com/name"),
       ("PUT", "https://fastdns.example/api/domains/7/records/")] :=
  ⟨rfl, rfl⟩

/-- C6, amended: `updateDNSEntry` called with a record whose id is empty never creates a
record.  The requests of the call are, in this order, a prefix of exactly these three: the
login `POST` to `/login_token` carrying the API token; the lookup `GET` of
`/api/domains/<zone>/name` carrying the session token of the login's answer; one `PUT` to
`/api/domains/<id>/records/`, where `<id>` is the domain id of the lookup's answer and the
record's empty id is appended, carrying the encoded record.  Each is sent only after the one
before it was answered with status 200.  The call returns a record without error only when
that `PUT` is answered with status 200 and a body that decodes as a wire record, which it then
returns; when the `PUT` is answered with any other status the call fails with the provider's
error.  Whether the call fails is decided by the provider's answer alone. -/
theorem update_without_id (env : Env) (s : State) (zone : String) (record : LibdnsRecord)
    (hid : record.ID = "") :
    ∃ l, (updateDNSEntry env s zone record).1.sent = s.sent ++ l ∧
      (l = [] ∨
       ∃ u a, env.urlParse
            (if s.provider.APIUrl = "" then env.DefaultUrl else s.provider.APIUrl) = .ok u ∧
         a = { Method := "POST", URL := env.urlString { u with Path := "/login_token" },
               Header := [("Accept", "application/json"),
                 ("Authenticate", s.provider.APIToken)],
               Body := none } ∧
         (l = [a] ∨
          ∃ body token g, env.Do s.sent a = .response 200 (.ok body) ∧
            env.unmarshalToken body = .ok token ∧
            g = { Method := "GET",
                  URL := env.urlString { u with Path := "/api/domains/" ++ zone ++ "/name" },
                  Header := [("Accept", "application/json"),
                    ("Authorization", "Bearer " ++ token.Token)],
                  Body := none } ∧
            (l = [a, g] ∨
             ∃ body' d json p, env.Do (s.sent ++ [a]) g = .response 200 (.ok body') ∧
               env.unmarshalDomain body' = .ok d ∧
               env.marshalRecord (toRecord record) = .ok json ∧
               p = { Method := "PUT",
                     URL := env.urlString
                       { u with Path := "/api/domains/" ++ toString d.Id ++ "/records/" },
                     Header := [("Content-Type", "application/json"),
                       ("Accept", "application/json"),
                       ("Authorization", "Bearer " ++ token.Token)],
                     Body := some json } ∧
               l = [a, g, p]))) ∧
      (∀ r, (updateDNSEntry env s zone record).2 = .ret r none →
        ∃ a g p body w, l = [a, g, p] ∧
          env.Do (s.sent ++ [a, g]) p = .response 200 (.ok body) ∧
          env.unmarshalRecord body = .ok w ∧ r = toLibdns w) ∧
      (∀ a g p status body, l = [a, g, p] →
        env.Do (s.sent ++ [a, g]) p = .response status (.ok body) → status ≠ 200 →
        (updateDNSEntry env s zone record).2 = .ret {} (some (match env.unmarshalError body with
          | .ok e => e.Message
          | .error _ => body))) := by
  have hId : (toRecord record).Id = "" := hid
  have hA := doAuth_outcome env s
  unfold updateDNSEntry
  rcases hAeq : doAuth env s with ⟨s1, r1⟩
  rw [hAeq] at hA
  dsimp only at hA
  rcases hA with ⟨hs, hno⟩ | ⟨u, hparse, hs1, hrest1⟩
  · -- the login sent nothing
    rcases r1 with ⟨v, _ | e⟩ | _
    · exact absurd rfl (hno v)
    all_goals
      refine ⟨[], by simp [hs], Or.inl rfl, fun r hr => by simp at hr,
        fun a g p status body h => by simp at h⟩
  rcases hrest1 with hno | ⟨body, token, hdo1, hdec1, hprov1, hret1⟩
  · -- the login was sent and failed
    rcases r1 with ⟨v, _ | e⟩ | _
    · exact absurd rfl (hno v)
    all_goals
      refine ⟨[_], hs1, Or.inr ⟨u, _, hparse, rfl, Or.inl rfl⟩, fun r hr => by simp at hr,
        fun a g p status body h => by simp at h⟩
  -- the login succeeded
  subst hret1
  dsimp only
  have hurl1 : s1.provider.APIUrl
      = if s.provider.APIUrl = "" then env.DefaultUrl else s.provider.APIUrl := by
    rw [hprov1, ← withDefaultUrl_APIUrl]
  have htok1 : s1.provider.token = token := by rw [hprov1]
  have hfix1 : withDefaultUrl env s1.provider = s1.provider :=
    withDefaultUrl_fixed env s.provider s1.provider (by rw [hprov1])
  have hB := getDomainByZone_outcome env s1 zone hfix1
  rw [hurl1, htok1] at hB
  rcases hBeq : getDomainByZone env s1 zone with ⟨s2, r2⟩
  rw [hBeq] at hB
  dsimp only at hB
  rw [hs1] at hB
  rcases hB with ⟨hs2, hno⟩ | ⟨u2, hparse2, hs2, hprov2, hrest2⟩
  · -- the lookup sent nothing
    rcases r2 with ⟨v, _ | e⟩ | _
    · exact absurd rfl (hno v)
    all_goals
      refine ⟨[_], hs2, Or.inr ⟨u, _, hparse, rfl, Or.inl rfl⟩, fun r hr => by simp at hr,
        fun a g p status body h => by simp at h⟩
  have hu2 : u2 = u := by
    rw [hparse] at hparse2
    exact (Except.ok.inj hparse2).symm
  subst hu2
  rw [List.append_assoc, List.singleton_append] at hs2
  rcases hrest2 with hno | ⟨body2, d, hdo2, hdec2, hret2⟩
  · -- the lookup was sent and failed
    rcases r2 with ⟨v, _ | e⟩ | _
    · exact absurd rfl (hno v)
    all_goals
      refine ⟨[_, _], hs2, Or.inr ⟨u2, _, hparse, rfl, Or.inr ⟨body, token, _, hdo1, hdec1, rfl,
        Or.inl rfl⟩⟩, fun r hr => by simp at hr, fun a g p status body h => by simp at h⟩
  -- the lookup succeeded
  subst hret2
  dsimp only
  have hfix2 : withDefaultUrl env s2.provider = s2.provider := by rw [hprov2]; exact hfix1
  have hC := updateRecord_outcome env s2 d.Id (toRecord record) hfix2
  rw [hprov2, hurl1, htok1, hId, String.append_empty] at hC
  have hE := fun req status body =>
    wireCall_error_policy env s2 "PUT"
      ("/api/domains/" ++ toString d.Id ++ "/records/" ++ (toRecord record).Id)
      ((env.marshalRecord (toRecord record)).map some) bearerJson 200 ({} : Record)
      env.unmarshalRecord (fun p _ => p) id req status body
  rw [← updateRecord_eq] at hE
  rcases hCeq : updateRecord env s2 d.Id (toRecord record) with ⟨s3, r3⟩
  rw [hCeq] at hC hE
  dsimp only at hC hE
  rw [hs2] at hC hE
  rcases hC with ⟨hs3, hno⟩ | ⟨u3, json, hparse3, hjson, hs3, hrest3⟩
  · -- the update sent nothing
    rcases r3 with ⟨v, _ | e⟩ | _
    · exact absurd rfl (hno v)
    all_goals
      refine ⟨[_, _], hs3, Or.inr ⟨u2, _, hparse, rfl, Or.inr ⟨body, token, _, hdo1, hdec1, rfl,
        Or.inl rfl⟩⟩, fun r hr => by simp at hr, fun a g p status body h => by simp at h⟩
  have hu3 : u3 = u2 := by
    rw [hparse] at hparse3
    exact (Except.ok.inj hparse3).symm
  subst hu3
  rw [List.append_assoc, List.cons_append, List.singleton_append] at hs3
  have hfst : ∀ x : State × Result LibdnsRecord, x.1 = s3 → x.1.sent = s.sent ++
      [{ Method := "POST", URL := env.urlString { u3 with Path := "/login_token" },
         Header := [("Accept", "application/json"), ("Authenticate", s.provider.APIToken)],
         Body := none },
       { Method := "GET",
         URL := env.urlString { u3 with Path := "/api/domains/" ++ zone ++ "/name" },
         Header := [("Accept", "application/json"),
           ("Authorization", "Bearer " ++ token.Token)],
         Body := none },
       { Method := "PUT",
         URL := env.urlString
           { u3 with Path := "/api/domains/" ++ toString d.Id ++ "/records/" },
         Header := [("Content-Type", "application/json"), ("Accept", "application/json"),
           ("Authorization", "Bearer " ++ token.Token)],
         Body := some json }] := fun x hx => by rw [hx]; exact hs3
  refine ⟨[_, _, _], hfst _ (by rcases r3 with ⟨v, _ | e⟩ | _ <;> rfl),
    Or.inr ⟨u3, _, hparse, rfl, Or.inr ⟨body, token, _, hdo1, hdec1, rfl,
    Or.inr ⟨body2, d, json, _, hdo2, hdec2, hjson, rfl, rfl⟩⟩⟩, ?_, ?_⟩
  · intro r hr
    rcases hrest3 with hno | ⟨body3, w, hdo3, hdec3, hret3⟩
    · rcases r3 with ⟨v, _ | e⟩ | _
      · exact absurd rfl (hno v)
      · simp at hr
      · simp at hr
    · subst hret3
      simp only [Result.ret.injEq, and_true] at hr
      exact ⟨_, _, _, body3, w, rfl, hdo3, hdec3, hr.symm⟩
  · intro a g p status body hl hdo hstatus
    simp only [List.cons.injEq, and_true] at hl
    obtain ⟨rfl, rfl, rfl⟩ := hl
    have h := hE _ status body (by rw [hs3]; simp) hdo hstatus
    subst h
    rfl

/-- C6, witness: an update without an id against a provider that answers the login and the
lookup with status 200 and the `PUT` with status 404. -/
theorem update_without_id_witness :
    ∃ l, (updateDNSEntry (demoEnv (demoServer (.response 404 (.ok notFoundBody)))) demoState
        "example.com" { ID := "", Typ := "TXT", Name := "test", Value := "hello" }).1.sent
          = demoState.sent ++ l ∧
      ∀ a g p status body, l = [a, g, p] →
        (demoEnv (demoServer (.response 404 (.ok notFoundBody)))).Do (demoState.sent ++ [a, g]) p
          = .response status (.ok body) → status ≠ 200 →
        (updateDNSEntry (demoEnv (demoServer (.response 404 (.ok notFoundBody)))) demoState
          "example.com" { ID := "", Typ := "TXT", Name := "test", Value := "hello" }).2
          = .ret {} (some (match
              (demoEnv (demoServer (.response 404 (.ok notFoundBody)))).unmarshalError body with
            | .ok e => e.Message
            | .error _ => body)) :=
  (update_without_id (demoEnv (demoServer (.response 404 (.ok notFoundBody)))) demoState
    "example.com" { ID := "", Typ := "TXT", Name := "test", Value := "hello" } rfl).imp
    fun _ h => ⟨h.1, h.2.2.2⟩

/-! ### C7: a failed stage ends the call -/

/-- C7: in each of the four adapter operations a failed stage ends the call with that stage's
error.  If `doAuth` returns an error, the operation returns that error in the state `doAuth`
left, so that neither a domain lookup nor a record request is issued; if `getDomainByZone`
returns an error, the operation returns that error in the state `getDomainByZone` left, so
that no record request is issued; an error of the third stage is returned as it is.  No stage
is repeated: the requests of one call are, in this order and each at most once, the login
`POST`, the lookup `GET` and the request of the third stage. -/
theorem stage_failure_aborts (env : Env) (s : State) (zone : String) (record : LibdnsRecord) :
    (∀ v e, (doAuth env s).2 = .ret v (some e) →
      getDNSEntries env s zone = ((doAuth env s).1, .ret [] (some e)) ∧
      addDNSEntry env s zone record = ((doAuth env s).1, .ret {} (some e)) ∧
      updateDNSEntry env s zone record = ((doAuth env s).1, .ret {} (some e)) ∧
      removeDNSEntry env s zone record = ((doAuth env s).1, .ret record (some e))) ∧
    (∀ v d e, (doAuth env s).2 = .ret v none →
      (getDomainByZone env (doAuth env s).1 zone).2 = .ret d (some e) →
      getDNSEntries env s zone =
        ((getDomainByZone env (doAuth env s).1 zone).1, .ret [] (some e)) ∧
      addDNSEntry env s zone record =
        ((getDomainByZone env (doAuth env s).1 zone).1, .ret {} (some e)) ∧
      updateDNSEntry env s zone record =
        ((getDomainByZone env (doAuth env s).1 zone).1, .ret {} (some e)) ∧
      removeDNSEntry env s zone record =
        ((getDomainByZone env (doAuth env s).1 zone).1, .ret record (some e))) ∧
    (∀ v d e, (doAuth env s).2 = .ret v none →
      (getDomainByZone env (doAuth env s).1 zone).2 = .ret d none →
      (∀ w, (getRecords env (getDomainByZone env (doAuth env s).1 zone).1 d.Id).2
          = .ret w (some e) →
        (getDNSEntries env s zone).2 = .ret [] (some e)) ∧
      (∀ w, (createRecord env (getDomainByZone env (doAuth env s).1 zone).1 d.Id
          (toRecordForm record)).2 = .ret w (some e) →
        (addDNSEntry env s zone record).2 = .ret {} (some e)) ∧
      (∀ w, (updateRecord env (getDomainByZone env (doAuth env s).1 zone).1 d.Id
          (toRecord record)).2 = .ret w (some e) →
        (updateDNSEntry env s zone record).2 = .ret {} (some e)) ∧
      (∀ w, (deleteRecord env (getDomainByZone env (doAuth env s).1 zone).1 d.Id
          record.ID).2 = .ret w (some e) →
        (removeDNSEntry env s zone record).2 = .ret record (some e))) ∧
    (∃ l, (getDNSEntries env s zone).1.sent = s.sent ++ l ∧
      l.map Request.Method <+: ["POST", "GET", "GET"]) ∧
    (∃ l, (addDNSEntry env s zone record).1.sent = s.sent ++ l ∧
      l.map Request.Method <+: ["POST", "GET", "POST"]) ∧
    (∃ l, (updateDNSEntry env s zone record).1.sent = s.sent ++ l ∧
      l.map Request.Method <+: ["POST", "GET", "PUT"]) ∧
    (∃ l, (removeDNSEntry env s zone record).1.sent = s.sent ++ l ∧
      l.map Request.Method <+: ["POST", "GET", "DELETE"]) := by
  simp only [getDNSEntries_eq, addDNSEntry_eq, updateDNSEntry_eq, removeDNSEntry_eq]
  refine ⟨fun v e h => ⟨?_, ?_, ?_, ?_⟩, fun v d e h1 h2 => ⟨?_, ?_, ?_, ?_⟩,
    fun v d e h1 h2 => ⟨?_, ?_, ?_, ?_⟩, ?_, ?_, ?_, ?_⟩
  · exact zoneCall_auth_error env s zone _ _ _ v e h
  · exact zoneCall_auth_error env s zone _ _ _ v e h
  · exact zoneCall_auth_error env s zone _ _ _ v e h
  · exact zoneCall_auth_error env s zone _ _ _ v e h
  · exact zoneCall_resolve_error env s zone _ _ _ v e d h1 h2
  · exact zoneCall_resolve_error env s zone _ _ _ v e d h1 h2
  · exact zoneCall_resolve_error env s zone _ _ _ v e d h1 h2
  · exact zoneCall_resolve_error env s zone _ _ _ v e d h1 h2
  · intro w hw
    rw [zoneCall_third env s zone _ _ _ v d h1 h2]
    rcases hC : getRecords env (getDomainByZone env (doAuth env s).1 zone).1 d.Id with ⟨s3, r3⟩
    rw [hC] at hw
    simp only at hw
    subst hw
    rfl
  · intro w hw
    rw [zoneCall_third env s zone _ _ _ v d h1 h2]
    rcases hC : createRecord env (getDomainByZone env (doAuth env s).1 zone).1 d.Id
      (toRecordForm record) with ⟨s3, r3⟩
    rw [hC] at hw
    simp only at hw
    subst hw
    rfl
  · intro w hw
    rw [zoneCall_third env s zone _ _ _ v d h1 h2]
    rcases hC : updateRecord env (getDomainByZone env (doAuth env s).1 zone).1 d.Id
      (toRecord record) with ⟨s3, r3⟩
    rw [hC] at hw
    simp only at hw
    subst hw
    rfl
  · intro w hw
    rw [zoneCall_third env s zone _ _ _ v d h1 h2]
    rcases hC : deleteRecord env (getDomainByZone env (doAuth env s).1 zone).1 d.Id
      record.ID with ⟨s3, r3⟩
    rw [hC] at hw
    simp only at hw
    subst hw
    rfl
  · refine (zoneCall_sent env s zone _ _ _ "GET" (fun _ => True) fun t d => ?_).imp
      fun l hl => ⟨hl.1, hl.2.1⟩
    rw [getRecords_eq]
    rcases wireCall_one_request env t "GET" _ (.ok none) bearer 200 ([] : List Record)
      env.unmarshalRecords (fun p _ => p) id bearer_Method with ⟨h, _⟩ | h
    · exact Or.inl h
    · exact Or.inr (h.imp fun _ hr => ⟨hr.1, trivial, hr.2⟩)
  · refine (zoneCall_sent env s zone _ _ _ "POST" (fun _ => True) fun t d => ?_).imp
      fun l hl => ⟨hl.1, hl.2.1⟩
    rw [createRecord_eq]
    rcases wireCall_one_request env t "POST" _ ((env.marshalRecordForm (toRecordForm record)).map
      some) bearerJson 201 ({} : Record) env.unmarshalRecord (fun p _ => p) id
      bearerJson_Method with ⟨h, _⟩ | h
    · exact Or.inl h
    · exact Or.inr (h.imp fun _ hr => ⟨hr.1, trivial, hr.2⟩)
  · refine (zoneCall_sent env s zone _ _ _ "PUT" (fun _ => True) fun t d => ?_).imp
      fun l hl => ⟨hl.1, hl.2.1⟩
    rw [updateRecord_eq]
    rcases wireCall_one_request env t "PUT" _ ((env.marshalRecord (toRecord record)).map
      some) bearerJson 200 ({} : Record) env.unmarshalRecord (fun p _ => p) id
      bearerJson_Method with ⟨h, _⟩ | h
    · exact Or.inl h
    · exact Or.inr (h.imp fun _ hr => ⟨hr.1, trivial, hr.2⟩)
  · refine (zoneCall_sent env s zone _ _ _ "DELETE" (fun _ => True) fun t d => ?_).imp
      fun l hl => ⟨hl.1, hl.2.1⟩
    rw [deleteRecord_eq]
    rcases wireCall_one_request env t "DELETE" _ (.ok none) bearer 204 ()
      (fun _ => (.ok () : Except String Unit)) (fun p _ => p) id bearer_Method with ⟨h, _⟩ | h
    · exact Or.inl h
    · exact Or.inr (h.imp fun _ hr => ⟨hr.1, trivial, hr.2⟩)

/-- C7, witness: the login is answered with status 401 and the text `bad token`; each
operation returns that text as its error after the one login request. -/
theorem stage_failure_aborts_witness :
    getDNSEntries (demoEnv fun _ _ => .response 401 (.ok "bad token")) demoState "example.com" =
      ((doAuth (demoEnv fun _ _ => .response 401 (.ok "bad token")) demoState).1,
        .ret [] (some "bad token")) :=
  ((stage_failure_aborts (demoEnv fun _ _ => .response 401 (.ok "bad token")) demoState
    "example.com" {}).1 "" "bad token" rfl).1

/-! ### C8: a malformed base URL -/

/-- C8: when `url.Parse` rejects the base URL, each of the six wire operations dereferences
the nil `*URL` in `u.Path = ...` before it looks at the error: the call panics instead of
returning the parse error.  No request is issued. -/
theorem malformed_url_panics (env : Env) (s : State) (zone : String) (domainId : Int)
    (form : RecordForm) (record : Record) (recordId : String) (e : String)
    (hparse : env.urlParse (withDefaultUrl env s.provider).APIUrl = .error e) :
    ((doAuth env s).2 = .panic ∧ (doAuth env s).1.sent = s.sent) ∧
    ((getDomainByZone env s zone).2 = .panic ∧ (getDomainByZone env s zone).1.sent = s.sent) ∧
    ((getRecords env s domainId).2 = .panic ∧ (getRecords env s domainId).1.sent = s.sent) ∧
    ((createRecord env s domainId form).2 = .panic ∧
      (createRecord env s domainId form).1.sent = s.sent) ∧
    ((updateRecord env s domainId record).2 = .panic ∧
      (updateRecord env s domainId record).1.sent = s.sent) ∧
    ((deleteRecord env s domainId recordId).2 = .panic ∧
      (deleteRecord env s domainId recordId).1.sent = s.sent) := by
  simp only [doAuth_eq, getDomainByZone_eq, getRecords_eq, createRecord_eq, updateRecord_eq,
    deleteRecord_eq, wireCall_parse_error _ _ _ _ _ _ _ _ _ _ _ e hparse, and_self]

/-- C8, witness: a provider configured with the base URL `://bad`, which `url.Parse` rejects
with "missing protocol scheme": `doAuth` panics. -/
theorem malformed_url_panics_witness :
    (doAuth (demoEnv (demoServer (.response 200 (.ok recordsBody))))
      { provider := { APIUrl := "://bad", APIToken := "secret" } }).2 = .panic :=
  (malformed_url_panics (demoEnv (demoServer (.response 200 (.ok recordsBody))))
    { provider := { APIUrl := "://bad", APIToken := "secret" } } "example.com" 7 {} {} "42"
    "parse \"://bad\": missing protocol scheme" rfl).1.1

/-! ### C9: the configuration fields across a call -/

/-- C9, counterexample: a provider constructed without a base URL.  After `getDNSEntries` its
`APIUrl` holds the default URL, no longer the empty text it held before the call. -/
theorem apiurl_written_when_empty :
    (getDNSEntries (demoEnv (demoServer (.response 200 (.ok recordsBody))))
        { provider := { APIUrl := "", APIToken := "secret" } } "example.com").1.provider.APIUrl
      = "https://fastdns.example" ∧
    (getDNSEntries (demoEnv (demoServer (.response 200 (.ok recordsBody))))
        { provider := { APIUrl := "", APIToken := "secret" } } "example.com").1.provider.APIUrl
      ≠ ({ APIUrl := "", APIToken := "secret" } : Provider).APIUrl :=
  ⟨rfl, ne_of_eq_of_ne (b := "https://fastdns.example") rfl (by decide)⟩

/-- C9, amended: for each of the four adapter operations, every zone and every initial state,
the API token after the call is the one before the call, and the base URL after the call is
the one before the call when that was not empty and `DefaultUrl` when it was empty. -/
theorem config_after_call (env : Env) (s : State) (zone : String) (record : LibdnsRecord) :
    ((getDNSEntries env s zone).1.provider.APIToken = s.provider.APIToken ∧
      (getDNSEntries env s zone).1.provider.APIUrl =
        if s.provider.APIUrl = "" then env.DefaultUrl else s.provider.APIUrl) ∧
    ((addDNSEntry env s zone record).1.provider.APIToken = s.provider.APIToken ∧
      (addDNSEntry env s zone record).1.provider.APIUrl =
        if s.provider.APIUrl = "" then env.DefaultUrl else s.provider.APIUrl) ∧
    ((updateDNSEntry env s zone record).1.provider.APIToken = s.provider.APIToken ∧
      (updateDNSEntry env s zone record).1.provider.APIUrl =
        if s.provider.APIUrl = "" then env.DefaultUrl else s.provider.APIUrl) ∧
    ((removeDNSEntry env s zone record).1.provider.APIToken = s.provider.APIToken ∧
      (removeDNSEntry env s zone record).1.provider.APIUrl =
        if s.provider.APIUrl = "" then env.DefaultUrl else s.provider.APIUrl) := by
  have hurl : (withDefaultUrl env s.provider).APIUrl =
      if s.provider.APIUrl = "" then env.DefaultUrl else s.provider.APIUrl := by
    unfold withDefaultUrl; split <;> rfl
  simp only [getDNSEntries_eq, addDNSEntry_eq, updateDNSEntry_eq, removeDNSEntry_eq, ← hurl]
  refine ⟨?_, ?_, ?_, ?_⟩
  · refine And.symm (zoneCall_provider env s zone _ _ _ fun t d => ?_)
    rw [getRecords_eq]
    exact wireCall_provider env t _ _ _ _ _ _ _ _ _ (fun _ _ => rfl) (fun _ _ => rfl)
  · refine And.symm (zoneCall_provider env s zone _ _ _ fun t d => ?_)
    rw [createRecord_eq]
    exact wireCall_provider env t _ _ _ _ _ _ _ _ _ (fun _ _ => rfl) (fun _ _ => rfl)
  · refine And.symm (zoneCall_provider env s zone _ _ _ fun t d => ?_)
    rw [updateRecord_eq]
    exact wireCall_provider env t _ _ _ _ _ _ _ _ _ (fun _ _ => rfl) (fun _ _ => rfl)
  · refine And.symm (zoneCall_provider env s zone _ _ _ fun t d => ?_)
    rw [deleteRecord_eq]
    exact wireCall_provider env t _ _ _ _ _ _ _ _ _ (fun _ _ => rfl) (fun _ _ => rfl)

end Fastdns
